import Mathlib

/-!
Shallow embedding of the Egyptian Ratscrew simulator
(`egyption-ratscrew/egyptian-ratscrew.ipynb`).

Encoding conventions, fixed once and used throughout:

* A Python `Card` is a pair of a `face` and a `suite`.  Faces are encoded as
  naturals: `2`–`10` are the number cards and `11`, `12`, `13`, `14` stand for
  `'Jack'`, `'Queen'`, `'King'`, `'Ace'`.  In Python an `int` face never
  compares equal to a `str` face, and the four royal strings are pairwise
  distinct, so this encoding preserves face equality exactly.  Suits
  `'Clubs'`, `'Diamonds'`, `'Hearts'`, `'Spades'` are encoded as `0`–`3`.

* A hand is a Python `deque` whose right end is both the end cards are played
  from (`hand.pop()`) and the end cards are dealt to (`hand.append`); the
  pile is received at the left end (`hand.extendleft(reversed(pile))`).  We
  represent a hand as a `List Card` whose HEAD is the deque's RIGHT end (the
  top, i.e. the next card to be played).  Hence `pop` is taking the head,
  dealing a card is `cons`, and receiving the pile appends at the tail end.

* The pile is a Python list with `append`/`pile[-1]` at the top.  We
  represent it as a `List Card` whose HEAD is the TOP (most recently played
  card).  With both conventions, `hand.extendleft(reversed(pile))` is
  exactly `hand ++ pile` on the list representations.

* The random shuffle and the slap arbiter are the two injected sources of
  nondeterminism.  The shuffle is modelled by passing the already-shuffled
  deck to `deal`/`simulate_game`; the zero-argument Python callable `slap()`
  is modelled as a function from its invocation count to the (arbitrary,
  possibly negative) integer it returns.
-/

namespace Ratscrew

structure Card where
  face : Nat
  suite : Nat
deriving DecidableEq, Repr

/-- The `royal` dict of the notebook: `Jack→1, Queen→2, King→3, Ace→4`.
`royal f = some v` corresponds to `f in royal` with `royal[f] = v`. -/
def royal (face : Nat) : Option Nat :=
  match face with
  | 11 => some 1
  | 12 => some 2
  | 13 => some 3
  | 14 => some 4
  | _ => none

/-- `new_deck()`: faces `2..10` then the royals in dict insertion order
(Jack, Queen, King, Ace), suits Clubs, Diamonds, Hearts, Spades inside each
face. -/
def new_deck : List Card :=
  (List.range' 2 9 ++ [11, 12, 13, 14]).flatMap fun f =>
    [0, 1, 2, 3].map fun s => Card.mk f s

/-- The dealing loop: `for hand in cycle(hands): if not deck: return hands;
hand.append(deck.pop())`.  Cards are consumed head-first from the REVERSED
deck (Python pops from the end), and `hand.append` pushes on top of the
receiving hand, which is `cons` in our encoding.  When `hands = []`
(`num_players = 0`) the Python `for` loop over `cycle([])` never runs and
the empty list is returned; here `List.set`/`% 0` make the recursion a
no-op on the hands, giving the same `[]` result. -/
def dealLoop : List Card → List (List Card) → Nat → List (List Card)
  | [], hands, _ => hands
  | c :: rest, hands, idx =>
      dealLoop rest (hands.set idx (c :: hands.getD idx [])) ((idx + 1) % hands.length)

/-- `deal(deck, num_players)` with the shuffle factored out: the argument is
the deck as it stands after `shuffle(deck)`. -/
def deal (shuffledDeck : List Card) (numPlayers : Nat) : List (List Card) :=
  dealLoop shuffledDeck.reverse (List.replicate numPlayers []) 0

/-- `slappable(pile)`: top two faces match, or top and third-from-top faces
match.  Head of the list is the pile top (`pile[-1]`). -/
def slappable : List Card → Bool
  | p1 :: p2 :: p3 :: _ => p1.face == p2.face || p1.face == p3.face
  | p1 :: p2 :: [] => p1.face == p2.face
  | _ => false

/-- Python runtime errors the engine can raise. -/
inductive Err where
  | indexErr
  | typeErr
deriving DecidableEq, Repr

/-- Python list indexing `hands[i]` for an `int` index `i` on a list of
length `n`: negative indices have `n` added; a result outside `[0, n)`
raises `IndexError` (`none`). -/
def pyIndex (n : Nat) (i : Int) : Option Nat :=
  if i < 0 then
    if 0 ≤ i + n then some (i + n).toNat else none
  else if i < n then some (i.toNat) else none

/-- State of the challenged-play bookkeeping between turns. -/
structure Mid where
  hands : List (List Card)
  pile : List Card
  chances : Nat
  challenger : Option Nat
  slapCount : Nat
deriving DecidableEq, Repr

inductive ChalResult where
  | ok (m : Mid)
  | err (e : Err)
deriving DecidableEq, Repr

/-- The inner `while chances > 0 and hand:` loop of `simulate_game`.
`i` is `hand_index`, `hand` is the live alias `hands[i]` (kept in sync with
`hands`), `slapCount` counts past invocations of the arbiter `slapFn`.
Each iteration pops a card onto the pile and decrements `chances`; a slap
transfers the whole pile to `hands[slapFn()]`, zeroes `chances` and breaks;
a royal makes the acting player the new challenger and breaks. -/
def challengeLoop (slapFn : Nat → Int) (i : Nat) :
    List Card → List (List Card) → List Card → Nat → Option Nat → Nat → ChalResult
  | hand, hands, pile, chances, challenger, slapCount =>
    if chances = 0 then .ok ⟨hands, pile, chances, challenger, slapCount⟩
    else
      match hand with
      | [] => .ok ⟨hands, pile, chances, challenger, slapCount⟩
      | newCard :: rest =>
        let hands1 := hands.set i rest
        let pile1 := newCard :: pile
        if slappable pile1 then
          match pyIndex hands1.length (slapFn slapCount) with
          | none => .err .indexErr
          | some s => .ok ⟨hands1.set s (hands1.getD s [] ++ pile1), [], 0, challenger, slapCount + 1⟩
        else
          match royal newCard.face with
          | some v => .ok ⟨hands1, pile1, v, some i, slapCount⟩
          | none => challengeLoop slapFn i rest hands1 pile1 (chances - 1) challenger slapCount

/-- A whole challenged turn: the `while` loop followed by the
`if chances == 0:` resolution that hands the pile to the challenger and
clears the challenge.  `hands[challenger]` with `challenger = None` would be
a `TypeError`, and with an out-of-range index an `IndexError`; both are
modelled and both are unreachable in actual runs. -/
def challengedTurn (slapFn : Nat → Int) (i : Nat) (hand : List Card)
    (hands : List (List Card)) (pile : List Card) (chances : Nat)
    (challenger : Option Nat) (slapCount : Nat) : ChalResult :=
  match challengeLoop slapFn i hand hands pile chances challenger slapCount with
  | .err e => .err e
  | .ok m =>
    if m.chances = 0 then
      match m.challenger with
      | none => .err .typeErr
      | some c =>
        if c < m.hands.length then
          .ok ⟨m.hands.set c (m.hands.getD c [] ++ m.pile), [], 0, none, m.slapCount⟩
        else .err .indexErr
    else .ok m

/-- Full state of the turn loop.  `turn` is the value `enumerate(..., start=1)`
will give the NEXT iteration; `handIndex` is the matching `hand_index`. -/
structure GameState where
  hands : List (List Card)
  pile : List Card
  chances : Nat
  challenger : Option Nat
  turn : Nat
  handIndex : Nat
  slapCount : Nat
deriving DecidableEq, Repr

/-- `np.argmax` on a list of naturals: index of the first maximum element
(`0` on the empty list, on which numpy would raise instead; the engine only
applies it to a nonempty list). -/
def argmaxAux : List Nat → Nat → Nat → Nat → Nat
  | [], _, best, _ => best
  | x :: xs, i, best, bestVal =>
      if bestVal < x then argmaxAux xs (i + 1) i x
      else argmaxAux xs (i + 1) best bestVal

def argmaxList : List Nat → Nat
  | [] => 0
  | x :: xs => argmaxAux xs 1 0 x

inductive StepResult where
  | cont (st : GameState)
  | finished (turn : Nat) (winner : Nat)
  | err (e : Err)
deriving DecidableEq, Repr

/-- One iteration of the `for turn, hand_index in enumerate(cycle(...), 1)`
loop: termination check, empty-hand skip, then either a normal play or a
challenged turn. -/
def turnStep (slapFn : Nat → Int) (st : GameState) : StepResult :=
  let n := st.hands.length
  let hand := st.hands.getD st.handIndex []
  if st.hands.countP (fun h => decide (0 < h.length)) = 1 then
    .finished st.turn (argmaxList (st.hands.map List.length))
  else if hand.isEmpty then
    .cont { st with turn := st.turn + 1, handIndex := (st.handIndex + 1) % n }
  else
    match st.challenger with
    | none =>
      match hand with
      | [] => .cont { st with turn := st.turn + 1, handIndex := (st.handIndex + 1) % n }
      | newCard :: rest =>
        let hands1 := st.hands.set st.handIndex rest
        let pile1 := newCard :: st.pile
        match royal newCard.face with
        | some v =>
            .cont ⟨hands1, pile1, v, some st.handIndex, st.turn + 1, (st.handIndex + 1) % n,
                   st.slapCount⟩
        | none =>
            .cont ⟨hands1, pile1, st.chances, st.challenger, st.turn + 1,
                   (st.handIndex + 1) % n, st.slapCount⟩
    | some _ =>
      match challengedTurn slapFn st.handIndex hand st.hands st.pile st.chances
          st.challenger st.slapCount with
      | .err e => .err e
      | .ok m =>
          .cont ⟨m.hands, m.pile, m.chances, m.challenger, st.turn + 1,
                 (st.handIndex + 1) % n, m.slapCount⟩

/-- Possible results of `simulate_game`: a normal `(turn, winner)` return, the
implicit `None` return when `num_players = 0` (the loop body never runs), or
a raised error. -/
inductive SimResult where
  | out (turn : Nat) (winner : Nat)
  | noneReturn
  | raised (e : Err)
deriving DecidableEq, Repr

def initState (shuffledDeck : List Card) (numPlayers : Nat) : GameState :=
  ⟨deal shuffledDeck numPlayers, [], 0, none, 1, 0, 0⟩

/-- Fuel-bounded unfolding of the turn loop; `none` means the fuel ran out
before the loop returned or raised. -/
def simLoop (slapFn : Nat → Int) : Nat → GameState → Option SimResult
  | 0, _ => none
  | fuel + 1, st =>
    match turnStep slapFn st with
    | .cont st' => simLoop slapFn fuel st'
    | .finished t w => some (.out t w)
    | .err e => some (.raised e)

/-- `simulate_game(num_players, slap)` with the shuffled deck and a fuel
bound made explicit.  With `num_players = 0` the Python loop iterates over
`cycle(range(0))`, which is empty, so the function returns `None`. -/
def simulate_game (shuffledDeck : List Card) (numPlayers : Nat)
    (slapFn : Nat → Int) (fuel : Nat) : Option SimResult :=
  if numPlayers = 0 then some .noneReturn
  else simLoop slapFn fuel (initState shuffledDeck numPlayers)

/-- `stepN f k st` is the state after `k` consecutive `cont` steps, `none`
if the loop returned or raised strictly before `k` steps.  The states in its
range are exactly the reachable states of the turn loop. -/
def stepN (slapFn : Nat → Int) : Nat → GameState → Option GameState
  | 0, st => some st
  | k + 1, st =>
    match turnStep slapFn st with
    | .cont st' => stepN slapFn k st'
    | _ => none

/-- The multiset of all cards in play: every hand plus the pile. -/
def stateCards (st : GameState) : Multiset Card :=
  (st.hands.flatten : Multiset Card) + (st.pile : Multiset Card)

/-! ### A concrete engineered game

A deterministic shuffle for a 2-player game in which player 0 opens each of
its 8 turns with an Ace or King, player 1 holds 26 number cards whose faces
cycle `2..10` (so no slap ever fires), and player 1 runs out of cards in the
middle of the final King challenge.  Player 0 plays, in order, the four Aces
then the four Kings; the rest of its hand is never reached. -/

def p0Hand : List Card :=
  [⟨14, 0⟩, ⟨14, 1⟩, ⟨14, 2⟩, ⟨14, 3⟩, ⟨13, 0⟩, ⟨13, 1⟩, ⟨13, 2⟩, ⟨13, 3⟩,
   ⟨11, 0⟩, ⟨11, 1⟩, ⟨11, 2⟩, ⟨11, 3⟩, ⟨12, 0⟩, ⟨12, 1⟩, ⟨12, 2⟩, ⟨12, 3⟩,
   ⟨2, 3⟩, ⟨3, 3⟩, ⟨4, 3⟩, ⟨5, 3⟩, ⟨6, 3⟩, ⟨7, 3⟩, ⟨8, 3⟩, ⟨9, 3⟩, ⟨10, 2⟩, ⟨10, 3⟩]

def p1Hand : List Card :=
  [⟨2, 0⟩, ⟨3, 0⟩, ⟨4, 0⟩, ⟨5, 0⟩, ⟨6, 0⟩, ⟨7, 0⟩, ⟨8, 0⟩, ⟨9, 0⟩, ⟨10, 0⟩,
   ⟨2, 1⟩, ⟨3, 1⟩, ⟨4, 1⟩, ⟨5, 1⟩, ⟨6, 1⟩, ⟨7, 1⟩, ⟨8, 1⟩, ⟨9, 1⟩, ⟨10, 1⟩,
   ⟨2, 2⟩, ⟨3, 2⟩, ⟨4, 2⟩, ⟨5, 2⟩, ⟨6, 2⟩, ⟨7, 2⟩, ⟨8, 2⟩, ⟨9, 2⟩]

/-- The shuffled deck that `deal _ 2` splits into `p0Hand` and `p1Hand`:
dealing pops from the end of the deck round-robin, so the deck interleaves
the two hands with player 1's first-played card at the deck's head. -/
def trickDeck : List Card :=
  (p1Hand.zip p0Hand).flatMap fun ab => [ab.1, ab.2]


/-! ### Literal state traces used by concrete-run theorems -/

def trickState0 : GameState :=
  ⟨[[⟨14, 0⟩, ⟨14, 1⟩, ⟨14, 2⟩, ⟨14, 3⟩, ⟨13, 0⟩, ⟨13, 1⟩, ⟨13, 2⟩, ⟨13, 3⟩, ⟨11, 0⟩, ⟨11, 1⟩, ⟨11, 2⟩, ⟨11, 3⟩, ⟨12, 0⟩, ⟨12, 1⟩, ⟨12, 2⟩, ⟨12, 3⟩, ⟨2, 3⟩, ⟨3, 3⟩, ⟨4, 3⟩, ⟨5, 3⟩, ⟨6, 3⟩, ⟨7, 3⟩, ⟨8, 3⟩, ⟨9, 3⟩, ⟨10, 2⟩, ⟨10, 3⟩], [⟨2, 0⟩, ⟨3, 0⟩, ⟨4, 0⟩, ⟨5, 0⟩, ⟨6, 0⟩, ⟨7, 0⟩, ⟨8, 0⟩, ⟨9, 0⟩, ⟨10, 0⟩, ⟨2, 1⟩, ⟨3, 1⟩, ⟨4, 1⟩, ⟨5, 1⟩, ⟨6, 1⟩, ⟨7, 1⟩, ⟨8, 1⟩, ⟨9, 1⟩, ⟨10, 1⟩, ⟨2, 2⟩, ⟨3, 2⟩, ⟨4, 2⟩, ⟨5, 2⟩, ⟨6, 2⟩, ⟨7, 2⟩, ⟨8, 2⟩, ⟨9, 2⟩]], [], 0, none, 1, 0, 0⟩

def trickState1 : GameState :=
  ⟨[[⟨14, 1⟩, ⟨14, 2⟩, ⟨14, 3⟩, ⟨13, 0⟩, ⟨13, 1⟩, ⟨13, 2⟩, ⟨13, 3⟩, ⟨11, 0⟩, ⟨11, 1⟩, ⟨11, 2⟩, ⟨11, 3⟩, ⟨12, 0⟩, ⟨12, 1⟩, ⟨12, 2⟩, ⟨12, 3⟩, ⟨2, 3⟩, ⟨3, 3⟩, ⟨4, 3⟩, ⟨5, 3⟩, ⟨6, 3⟩, ⟨7, 3⟩, ⟨8, 3⟩, ⟨9, 3⟩, ⟨10, 2⟩, ⟨10, 3⟩], [⟨2, 0⟩, ⟨3, 0⟩, ⟨4, 0⟩, ⟨5, 0⟩, ⟨6, 0⟩, ⟨7, 0⟩, ⟨8, 0⟩, ⟨9, 0⟩, ⟨10, 0⟩, ⟨2, 1⟩, ⟨3, 1⟩, ⟨4, 1⟩, ⟨5, 1⟩, ⟨6, 1⟩, ⟨7, 1⟩, ⟨8, 1⟩, ⟨9, 1⟩, ⟨10, 1⟩, ⟨2, 2⟩, ⟨3, 2⟩, ⟨4, 2⟩, ⟨5, 2⟩, ⟨6, 2⟩, ⟨7, 2⟩, ⟨8, 2⟩, ⟨9, 2⟩]], [⟨14, 0⟩], 4, some 0, 2, 1, 0⟩

def trickState2 : GameState :=
  ⟨[[⟨14, 1⟩, ⟨14, 2⟩, ⟨14, 3⟩, ⟨13, 0⟩, ⟨13, 1⟩, ⟨13, 2⟩, ⟨13, 3⟩, ⟨11, 0⟩, ⟨11, 1⟩, ⟨11, 2⟩, ⟨11, 3⟩, ⟨12, 0⟩, ⟨12, 1⟩, ⟨12, 2⟩, ⟨12, 3⟩, ⟨2, 3⟩, ⟨3, 3⟩, ⟨4, 3⟩, ⟨5, 3⟩, ⟨6, 3⟩, ⟨7, 3⟩, ⟨8, 3⟩, ⟨9, 3⟩, ⟨10, 2⟩, ⟨10, 3⟩, ⟨5, 0⟩, ⟨4, 0⟩, ⟨3, 0⟩, ⟨2, 0⟩, ⟨14, 0⟩], [⟨6, 0⟩, ⟨7, 0⟩, ⟨8, 0⟩, ⟨9, 0⟩, ⟨10, 0⟩, ⟨2, 1⟩, ⟨3, 1⟩, ⟨4, 1⟩, ⟨5, 1⟩, ⟨6, 1⟩, ⟨7, 1⟩, ⟨8, 1⟩, ⟨9, 1⟩, ⟨10, 1⟩, ⟨2, 2⟩, ⟨3, 2⟩, ⟨4, 2⟩, ⟨5, 2⟩, ⟨6, 2⟩, ⟨7, 2⟩, ⟨8, 2⟩, ⟨9, 2⟩]], [], 0, none, 3, 0, 0⟩

def trickState3 : GameState :=
  ⟨[[⟨14, 2⟩, ⟨14, 3⟩, ⟨13, 0⟩, ⟨13, 1⟩, ⟨13, 2⟩, ⟨13, 3⟩, ⟨11, 0⟩, ⟨11, 1⟩, ⟨11, 2⟩, ⟨11, 3⟩, ⟨12, 0⟩, ⟨12, 1⟩, ⟨12, 2⟩, ⟨12, 3⟩, ⟨2, 3⟩, ⟨3, 3⟩, ⟨4, 3⟩, ⟨5, 3⟩, ⟨6, 3⟩, ⟨7, 3⟩, ⟨8, 3⟩, ⟨9, 3⟩, ⟨10, 2⟩, ⟨10, 3⟩, ⟨5, 0⟩, ⟨4, 0⟩, ⟨3, 0⟩, ⟨2, 0⟩, ⟨14, 0⟩], [⟨6, 0⟩, ⟨7, 0⟩, ⟨8, 0⟩, ⟨9, 0⟩, ⟨10, 0⟩, ⟨2, 1⟩, ⟨3, 1⟩, ⟨4, 1⟩, ⟨5, 1⟩, ⟨6, 1⟩, ⟨7, 1⟩, ⟨8, 1⟩, ⟨9, 1⟩, ⟨10, 1⟩, ⟨2, 2⟩, ⟨3, 2⟩, ⟨4, 2⟩, ⟨5, 2⟩, ⟨6, 2⟩, ⟨7, 2⟩, ⟨8, 2⟩, ⟨9, 2⟩]], [⟨14, 1⟩], 4, some 0, 4, 1, 0⟩

def trickState4 : GameState :=
  ⟨[[⟨14, 2⟩, ⟨14, 3⟩, ⟨13, 0⟩, ⟨13, 1⟩, ⟨13, 2⟩, ⟨13, 3⟩, ⟨11, 0⟩, ⟨11, 1⟩, ⟨11, 2⟩, ⟨11, 3⟩, ⟨12, 0⟩, ⟨12, 1⟩, ⟨12, 2⟩, ⟨12, 3⟩, ⟨2, 3⟩, ⟨3, 3⟩, ⟨4, 3⟩, ⟨5, 3⟩, ⟨6, 3⟩, ⟨7, 3⟩, ⟨8, 3⟩, ⟨9, 3⟩, ⟨10, 2⟩, ⟨10, 3⟩, ⟨5, 0⟩, ⟨4, 0⟩, ⟨3, 0⟩, ⟨2, 0⟩, ⟨14, 0⟩, ⟨9, 0⟩, ⟨8, 0⟩, ⟨7, 0⟩, ⟨6, 0⟩, ⟨14, 1⟩], [⟨10, 0⟩, ⟨2, 1⟩, ⟨3, 1⟩, ⟨4, 1⟩, ⟨5, 1⟩, ⟨6, 1⟩, ⟨7, 1⟩, ⟨8, 1⟩, ⟨9, 1⟩, ⟨10, 1⟩, ⟨2, 2⟩, ⟨3, 2⟩, ⟨4, 2⟩, ⟨5, 2⟩, ⟨6, 2⟩, ⟨7, 2⟩, ⟨8, 2⟩, ⟨9, 2⟩]], [], 0, none, 5, 0, 0⟩

def trickState5 : GameState :=
  ⟨[[⟨14, 3⟩, ⟨13, 0⟩, ⟨13, 1⟩, ⟨13, 2⟩, ⟨13, 3⟩, ⟨11, 0⟩, ⟨11, 1⟩, ⟨11, 2⟩, ⟨11, 3⟩, ⟨12, 0⟩, ⟨12, 1⟩, ⟨12, 2⟩, ⟨12, 3⟩, ⟨2, 3⟩, ⟨3, 3⟩, ⟨4, 3⟩, ⟨5, 3⟩, ⟨6, 3⟩, ⟨7, 3⟩, ⟨8, 3⟩, ⟨9, 3⟩, ⟨10, 2⟩, ⟨10, 3⟩, ⟨5, 0⟩, ⟨4, 0⟩, ⟨3, 0⟩, ⟨2, 0⟩, ⟨14, 0⟩, ⟨9, 0⟩, ⟨8, 0⟩, ⟨7, 0⟩, ⟨6, 0⟩, ⟨14, 1⟩], [⟨10, 0⟩, ⟨2, 1⟩, ⟨3, 1⟩, ⟨4, 1⟩, ⟨5, 1⟩, ⟨6, 1⟩, ⟨7, 1⟩, ⟨8, 1⟩, ⟨9, 1⟩, ⟨10, 1⟩, ⟨2, 2⟩, ⟨3, 2⟩, ⟨4, 2⟩, ⟨5, 2⟩, ⟨6, 2⟩, ⟨7, 2⟩, ⟨8, 2⟩, ⟨9, 2⟩]], [⟨14, 2⟩], 4, some 0, 6, 1, 0⟩

def trickState6 : GameState :=
  ⟨[[⟨14, 3⟩, ⟨13, 0⟩, ⟨13, 1⟩, ⟨13, 2⟩, ⟨13, 3⟩, ⟨11, 0⟩, ⟨11, 1⟩, ⟨11, 2⟩, ⟨11, 3⟩, ⟨12, 0⟩, ⟨12, 1⟩, ⟨12, 2⟩, ⟨12, 3⟩, ⟨2, 3⟩, ⟨3, 3⟩, ⟨4, 3⟩, ⟨5, 3⟩, ⟨6, 3⟩, ⟨7, 3⟩, ⟨8, 3⟩, ⟨9, 3⟩, ⟨10, 2⟩, ⟨10, 3⟩, ⟨5, 0⟩, ⟨4, 0⟩, ⟨3, 0⟩, ⟨2, 0⟩, ⟨14, 0⟩, ⟨9, 0⟩, ⟨8, 0⟩, ⟨7, 0⟩, ⟨6, 0⟩, ⟨14, 1⟩, ⟨4, 1⟩, ⟨3, 1⟩, ⟨2, 1⟩, ⟨10, 0⟩, ⟨14, 2⟩], [⟨5, 1⟩, ⟨6, 1⟩, ⟨7, 1⟩, ⟨8, 1⟩, ⟨9, 1⟩, ⟨10, 1⟩, ⟨2, 2⟩, ⟨3, 2⟩, ⟨4, 2⟩, ⟨5, 2⟩, ⟨6, 2⟩, ⟨7, 2⟩, ⟨8, 2⟩, ⟨9, 2⟩]], [], 0, none, 7, 0, 0⟩

def trickState7 : GameState :=
  ⟨[[⟨13, 0⟩, ⟨13, 1⟩, ⟨13, 2⟩, ⟨13, 3⟩, ⟨11, 0⟩, ⟨11, 1⟩, ⟨11, 2⟩, ⟨11, 3⟩, ⟨12, 0⟩, ⟨12, 1⟩, ⟨12, 2⟩, ⟨12, 3⟩, ⟨2, 3⟩, ⟨3, 3⟩, ⟨4, 3⟩, ⟨5, 3⟩, ⟨6, 3⟩, ⟨7, 3⟩, ⟨8, 3⟩, ⟨9, 3⟩, ⟨10, 2⟩, ⟨10, 3⟩, ⟨5, 0⟩, ⟨4, 0⟩, ⟨3, 0⟩, ⟨2, 0⟩, ⟨14, 0⟩, ⟨9, 0⟩, ⟨8, 0⟩, ⟨7, 0⟩, ⟨6, 0⟩, ⟨14, 1⟩, ⟨4, 1⟩, ⟨3, 1⟩, ⟨2, 1⟩, ⟨10, 0⟩, ⟨14, 2⟩], [⟨5, 1⟩, ⟨6, 1⟩, ⟨7, 1⟩, ⟨8, 1⟩, ⟨9, 1⟩, ⟨10, 1⟩, ⟨2, 2⟩, ⟨3, 2⟩, ⟨4, 2⟩, ⟨5, 2⟩, ⟨6, 2⟩, ⟨7, 2⟩, ⟨8, 2⟩, ⟨9, 2⟩]], [⟨14, 3⟩], 4, some 0, 8, 1, 0⟩

def trickState8 : GameState :=
  ⟨[[⟨13, 0⟩, ⟨13, 1⟩, ⟨13, 2⟩, ⟨13, 3⟩, ⟨11, 0⟩, ⟨11, 1⟩, ⟨11, 2⟩, ⟨11, 3⟩, ⟨12, 0⟩, ⟨12, 1⟩, ⟨12, 2⟩, ⟨12, 3⟩, ⟨2, 3⟩, ⟨3, 3⟩, ⟨4, 3⟩, ⟨5, 3⟩, ⟨6, 3⟩, ⟨7, 3⟩, ⟨8, 3⟩, ⟨9, 3⟩, ⟨10, 2⟩, ⟨10, 3⟩, ⟨5, 0⟩, ⟨4, 0⟩, ⟨3, 0⟩, ⟨2, 0⟩, ⟨14, 0⟩, ⟨9, 0⟩, ⟨8, 0⟩, ⟨7, 0⟩, ⟨6, 0⟩, ⟨14, 1⟩, ⟨4, 1⟩, ⟨3, 1⟩, ⟨2, 1⟩, ⟨10, 0⟩, ⟨14, 2⟩, ⟨8, 1⟩, ⟨7, 1⟩, ⟨6, 1⟩, ⟨5, 1⟩, ⟨14, 3⟩], [⟨9, 1⟩, ⟨10, 1⟩, ⟨2, 2⟩, ⟨3, 2⟩, ⟨4, 2⟩, ⟨5, 2⟩, ⟨6, 2⟩, ⟨7, 2⟩, ⟨8, 2⟩, ⟨9, 2⟩]], [], 0, none, 9, 0, 0⟩

def trickState9 : GameState :=
  ⟨[[⟨13, 1⟩, ⟨13, 2⟩, ⟨13, 3⟩, ⟨11, 0⟩, ⟨11, 1⟩, ⟨11, 2⟩, ⟨11, 3⟩, ⟨12, 0⟩, ⟨12, 1⟩, ⟨12, 2⟩, ⟨12, 3⟩, ⟨2, 3⟩, ⟨3, 3⟩, ⟨4, 3⟩, ⟨5, 3⟩, ⟨6, 3⟩, ⟨7, 3⟩, ⟨8, 3⟩, ⟨9, 3⟩, ⟨10, 2⟩, ⟨10, 3⟩, ⟨5, 0⟩, ⟨4, 0⟩, ⟨3, 0⟩, ⟨2, 0⟩, ⟨14, 0⟩, ⟨9, 0⟩, ⟨8, 0⟩, ⟨7, 0⟩, ⟨6, 0⟩, ⟨14, 1⟩, ⟨4, 1⟩, ⟨3, 1⟩, ⟨2, 1⟩, ⟨10, 0⟩, ⟨14, 2⟩, ⟨8, 1⟩, ⟨7, 1⟩, ⟨6, 1⟩, ⟨5, 1⟩, ⟨14, 3⟩], [⟨9, 1⟩, ⟨10, 1⟩, ⟨2, 2⟩, ⟨3, 2⟩, ⟨4, 2⟩, ⟨5, 2⟩, ⟨6, 2⟩, ⟨7, 2⟩, ⟨8, 2⟩, ⟨9, 2⟩]], [⟨13, 0⟩], 3, some 0, 10, 1, 0⟩

def trickState10 : GameState :=
  ⟨[[⟨13, 1⟩, ⟨13, 2⟩, ⟨13, 3⟩, ⟨11, 0⟩, ⟨11, 1⟩, ⟨11, 2⟩, ⟨11, 3⟩, ⟨12, 0⟩, ⟨12, 1⟩, ⟨12, 2⟩, ⟨12, 3⟩, ⟨2, 3⟩, ⟨3, 3⟩, ⟨4, 3⟩, ⟨5, 3⟩, ⟨6, 3⟩, ⟨7, 3⟩, ⟨8, 3⟩, ⟨9, 3⟩, ⟨10, 2⟩, ⟨10, 3⟩, ⟨5, 0⟩, ⟨4, 0⟩, ⟨3, 0⟩, ⟨2, 0⟩, ⟨14, 0⟩, ⟨9, 0⟩, ⟨8, 0⟩, ⟨7, 0⟩, ⟨6, 0⟩, ⟨14, 1⟩, ⟨4, 1⟩, ⟨3, 1⟩, ⟨2, 1⟩, ⟨10, 0⟩, ⟨14, 2⟩, ⟨8, 1⟩, ⟨7, 1⟩, ⟨6, 1⟩, ⟨5, 1⟩, ⟨14, 3⟩, ⟨2, 2⟩, ⟨10, 1⟩, ⟨9, 1⟩, ⟨13, 0⟩], [⟨3, 2⟩, ⟨4, 2⟩, ⟨5, 2⟩, ⟨6, 2⟩, ⟨7, 2⟩, ⟨8, 2⟩, ⟨9, 2⟩]], [], 0, none, 11, 0, 0⟩

def trickState11 : GameState :=
  ⟨[[⟨13, 2⟩, ⟨13, 3⟩, ⟨11, 0⟩, ⟨11, 1⟩, ⟨11, 2⟩, ⟨11, 3⟩, ⟨12, 0⟩, ⟨12, 1⟩, ⟨12, 2⟩, ⟨12, 3⟩, ⟨2, 3⟩, ⟨3, 3⟩, ⟨4, 3⟩, ⟨5, 3⟩, ⟨6, 3⟩, ⟨7, 3⟩, ⟨8, 3⟩, ⟨9, 3⟩, ⟨10, 2⟩, ⟨10, 3⟩, ⟨5, 0⟩, ⟨4, 0⟩, ⟨3, 0⟩, ⟨2, 0⟩, ⟨14, 0⟩, ⟨9, 0⟩, ⟨8, 0⟩, ⟨7, 0⟩, ⟨6, 0⟩, ⟨14, 1⟩, ⟨4, 1⟩, ⟨3, 1⟩, ⟨2, 1⟩, ⟨10, 0⟩, ⟨14, 2⟩, ⟨8, 1⟩, ⟨7, 1⟩, ⟨6, 1⟩, ⟨5, 1⟩, ⟨14, 3⟩, ⟨2, 2⟩, ⟨10, 1⟩, ⟨9, 1⟩, ⟨13, 0⟩], [⟨3, 2⟩, ⟨4, 2⟩, ⟨5, 2⟩, ⟨6, 2⟩, ⟨7, 2⟩, ⟨8, 2⟩, ⟨9, 2⟩]], [⟨13, 1⟩], 3, some 0, 12, 1, 0⟩

def trickState12 : GameState :=
  ⟨[[⟨13, 2⟩, ⟨13, 3⟩, ⟨11, 0⟩, ⟨11, 1⟩, ⟨11, 2⟩, ⟨11, 3⟩, ⟨12, 0⟩, ⟨12, 1⟩, ⟨12, 2⟩, ⟨12, 3⟩, ⟨2, 3⟩, ⟨3, 3⟩, ⟨4, 3⟩, ⟨5, 3⟩, ⟨6, 3⟩, ⟨7, 3⟩, ⟨8, 3⟩, ⟨9, 3⟩, ⟨10, 2⟩, ⟨10, 3⟩, ⟨5, 0⟩, ⟨4, 0⟩, ⟨3, 0⟩, ⟨2, 0⟩, ⟨14, 0⟩, ⟨9, 0⟩, ⟨8, 0⟩, ⟨7, 0⟩, ⟨6, 0⟩, ⟨14, 1⟩, ⟨4, 1⟩, ⟨3, 1⟩, ⟨2, 1⟩, ⟨10, 0⟩, ⟨14, 2⟩, ⟨8, 1⟩, ⟨7, 1⟩, ⟨6, 1⟩, ⟨5, 1⟩, ⟨14, 3⟩, ⟨2, 2⟩, ⟨10, 1⟩, ⟨9, 1⟩, ⟨13, 0⟩, ⟨5, 2⟩, ⟨4, 2⟩, ⟨3, 2⟩, ⟨13, 1⟩], [⟨6, 2⟩, ⟨7, 2⟩, ⟨8, 2⟩, ⟨9, 2⟩]], [], 0, none, 13, 0, 0⟩

def trickState13 : GameState :=
  ⟨[[⟨13, 3⟩, ⟨11, 0⟩, ⟨11, 1⟩, ⟨11, 2⟩, ⟨11, 3⟩, ⟨12, 0⟩, ⟨12, 1⟩, ⟨12, 2⟩, ⟨12, 3⟩, ⟨2, 3⟩, ⟨3, 3⟩, ⟨4, 3⟩, ⟨5, 3⟩, ⟨6, 3⟩, ⟨7, 3⟩, ⟨8, 3⟩, ⟨9, 3⟩, ⟨10, 2⟩, ⟨10, 3⟩, ⟨5, 0⟩, ⟨4, 0⟩, ⟨3, 0⟩, ⟨2, 0⟩, ⟨14, 0⟩, ⟨9, 0⟩, ⟨8, 0⟩, ⟨7, 0⟩, ⟨6, 0⟩, ⟨14, 1⟩, ⟨4, 1⟩, ⟨3, 1⟩, ⟨2, 1⟩, ⟨10, 0⟩, ⟨14, 2⟩, ⟨8, 1⟩, ⟨7, 1⟩, ⟨6, 1⟩, ⟨5, 1⟩, ⟨14, 3⟩, ⟨2, 2⟩, ⟨10, 1⟩, ⟨9, 1⟩, ⟨13, 0⟩, ⟨5, 2⟩, ⟨4, 2⟩, ⟨3, 2⟩, ⟨13, 1⟩], [⟨6, 2⟩, ⟨7, 2⟩, ⟨8, 2⟩, ⟨9, 2⟩]], [⟨13, 2⟩], 3, some 0, 14, 1, 0⟩

def trickState14 : GameState :=
  ⟨[[⟨13, 3⟩, ⟨11, 0⟩, ⟨11, 1⟩, ⟨11, 2⟩, ⟨11, 3⟩, ⟨12, 0⟩, ⟨12, 1⟩, ⟨12, 2⟩, ⟨12, 3⟩, ⟨2, 3⟩, ⟨3, 3⟩, ⟨4, 3⟩, ⟨5, 3⟩, ⟨6, 3⟩, ⟨7, 3⟩, ⟨8, 3⟩, ⟨9, 3⟩, ⟨10, 2⟩, ⟨10, 3⟩, ⟨5, 0⟩, ⟨4, 0⟩, ⟨3, 0⟩, ⟨2, 0⟩, ⟨14, 0⟩, ⟨9, 0⟩, ⟨8, 0⟩, ⟨7, 0⟩, ⟨6, 0⟩, ⟨14, 1⟩, ⟨4, 1⟩, ⟨3, 1⟩, ⟨2, 1⟩, ⟨10, 0⟩, ⟨14, 2⟩, ⟨8, 1⟩, ⟨7, 1⟩, ⟨6, 1⟩, ⟨5, 1⟩, ⟨14, 3⟩, ⟨2, 2⟩, ⟨10, 1⟩, ⟨9, 1⟩, ⟨13, 0⟩, ⟨5, 2⟩, ⟨4, 2⟩, ⟨3, 2⟩, ⟨13, 1⟩, ⟨8, 2⟩, ⟨7, 2⟩, ⟨6, 2⟩, ⟨13, 2⟩], [⟨9, 2⟩]], [], 0, none, 15, 0, 0⟩

def trickState15 : GameState :=
  ⟨[[⟨11, 0⟩, ⟨11, 1⟩, ⟨11, 2⟩, ⟨11, 3⟩, ⟨12, 0⟩, ⟨12, 1⟩, ⟨12, 2⟩, ⟨12, 3⟩, ⟨2, 3⟩, ⟨3, 3⟩, ⟨4, 3⟩, ⟨5, 3⟩, ⟨6, 3⟩, ⟨7, 3⟩, ⟨8, 3⟩, ⟨9, 3⟩, ⟨10, 2⟩, ⟨10, 3⟩, ⟨5, 0⟩, ⟨4, 0⟩, ⟨3, 0⟩, ⟨2, 0⟩, ⟨14, 0⟩, ⟨9, 0⟩, ⟨8, 0⟩, ⟨7, 0⟩, ⟨6, 0⟩, ⟨14, 1⟩, ⟨4, 1⟩, ⟨3, 1⟩, ⟨2, 1⟩, ⟨10, 0⟩, ⟨14, 2⟩, ⟨8, 1⟩, ⟨7, 1⟩, ⟨6, 1⟩, ⟨5, 1⟩, ⟨14, 3⟩, ⟨2, 2⟩, ⟨10, 1⟩, ⟨9, 1⟩, ⟨13, 0⟩, ⟨5, 2⟩, ⟨4, 2⟩, ⟨3, 2⟩, ⟨13, 1⟩, ⟨8, 2⟩, ⟨7, 2⟩, ⟨6, 2⟩, ⟨13, 2⟩], [⟨9, 2⟩]], [⟨13, 3⟩], 3, some 0, 16, 1, 0⟩

def trickState16 : GameState :=
  ⟨[[⟨11, 0⟩, ⟨11, 1⟩, ⟨11, 2⟩, ⟨11, 3⟩, ⟨12, 0⟩, ⟨12, 1⟩, ⟨12, 2⟩, ⟨12, 3⟩, ⟨2, 3⟩, ⟨3, 3⟩, ⟨4, 3⟩, ⟨5, 3⟩, ⟨6, 3⟩, ⟨7, 3⟩, ⟨8, 3⟩, ⟨9, 3⟩, ⟨10, 2⟩, ⟨10, 3⟩, ⟨5, 0⟩, ⟨4, 0⟩, ⟨3, 0⟩, ⟨2, 0⟩, ⟨14, 0⟩, ⟨9, 0⟩, ⟨8, 0⟩, ⟨7, 0⟩, ⟨6, 0⟩, ⟨14, 1⟩, ⟨4, 1⟩, ⟨3, 1⟩, ⟨2, 1⟩, ⟨10, 0⟩, ⟨14, 2⟩, ⟨8, 1⟩, ⟨7, 1⟩, ⟨6, 1⟩, ⟨5, 1⟩, ⟨14, 3⟩, ⟨2, 2⟩, ⟨10, 1⟩, ⟨9, 1⟩, ⟨13, 0⟩, ⟨5, 2⟩, ⟨4, 2⟩, ⟨3, 2⟩, ⟨13, 1⟩, ⟨8, 2⟩, ⟨7, 2⟩, ⟨6, 2⟩, ⟨13, 2⟩], []], [⟨9, 2⟩, ⟨13, 3⟩], 2, some 0, 17, 0, 0⟩

def newDeckState0 : GameState :=
  ⟨[[⟨2, 1⟩, ⟨2, 3⟩, ⟨3, 1⟩, ⟨3, 3⟩, ⟨4, 1⟩, ⟨4, 3⟩, ⟨5, 1⟩, ⟨5, 3⟩, ⟨6, 1⟩, ⟨6, 3⟩, ⟨7, 1⟩, ⟨7, 3⟩, ⟨8, 1⟩, ⟨8, 3⟩, ⟨9, 1⟩, ⟨9, 3⟩, ⟨10, 1⟩, ⟨10, 3⟩, ⟨11, 1⟩, ⟨11, 3⟩, ⟨12, 1⟩, ⟨12, 3⟩, ⟨13, 1⟩, ⟨13, 3⟩, ⟨14, 1⟩, ⟨14, 3⟩], [⟨2, 0⟩, ⟨2, 2⟩, ⟨3, 0⟩, ⟨3, 2⟩, ⟨4, 0⟩, ⟨4, 2⟩, ⟨5, 0⟩, ⟨5, 2⟩, ⟨6, 0⟩, ⟨6, 2⟩, ⟨7, 0⟩, ⟨7, 2⟩, ⟨8, 0⟩, ⟨8, 2⟩, ⟨9, 0⟩, ⟨9, 2⟩, ⟨10, 0⟩, ⟨10, 2⟩, ⟨11, 0⟩, ⟨11, 2⟩, ⟨12, 0⟩, ⟨12, 2⟩, ⟨13, 0⟩, ⟨13, 2⟩, ⟨14, 0⟩, ⟨14, 2⟩]], [], 0, none, 1, 0, 0⟩

def newDeckState1 : GameState :=
  ⟨[[⟨2, 3⟩, ⟨3, 1⟩, ⟨3, 3⟩, ⟨4, 1⟩, ⟨4, 3⟩, ⟨5, 1⟩, ⟨5, 3⟩, ⟨6, 1⟩, ⟨6, 3⟩, ⟨7, 1⟩, ⟨7, 3⟩, ⟨8, 1⟩, ⟨8, 3⟩, ⟨9, 1⟩, ⟨9, 3⟩, ⟨10, 1⟩, ⟨10, 3⟩, ⟨11, 1⟩, ⟨11, 3⟩, ⟨12, 1⟩, ⟨12, 3⟩, ⟨13, 1⟩, ⟨13, 3⟩, ⟨14, 1⟩, ⟨14, 3⟩], [⟨2, 0⟩, ⟨2, 2⟩, ⟨3, 0⟩, ⟨3, 2⟩, ⟨4, 0⟩, ⟨4, 2⟩, ⟨5, 0⟩, ⟨5, 2⟩, ⟨6, 0⟩, ⟨6, 2⟩, ⟨7, 0⟩, ⟨7, 2⟩, ⟨8, 0⟩, ⟨8, 2⟩, ⟨9, 0⟩, ⟨9, 2⟩, ⟨10, 0⟩, ⟨10, 2⟩, ⟨11, 0⟩, ⟨11, 2⟩, ⟨12, 0⟩, ⟨12, 2⟩, ⟨13, 0⟩, ⟨13, 2⟩, ⟨14, 0⟩, ⟨14, 2⟩]], [⟨2, 1⟩], 0, none, 2, 1, 0⟩

end Ratscrew

/-! ## Helper lemmas -/

namespace Ratscrew

theorem getD_set_self {α : Type} (l : List α) (i : Nat) (x d : α) (h : i < l.length) :
    (l.set i x).getD i d = x := by
  induction l generalizing i with
  | nil => simp at h
  | cons a t ih =>
    cases i with
    | zero => rfl
    | succ n => simpa [List.getD] using ih n (by simpa using h)

theorem getD_set_ne {α : Type} (l : List α) (i j : Nat) (x d : α) (h : i ≠ j) :
    (l.set i x).getD j d = l.getD j d := by
  induction l generalizing i j with
  | nil => simp
  | cons a t ih =>
    cases i with
    | zero =>
      cases j with
      | zero => exact absurd rfl h
      | succ m => rfl
    | succ n =>
      cases j with
      | zero => rfl
      | succ m => simpa [List.getD] using ih n m (fun hnm => h (by omega))

theorem set_getD_self {α : Type} (l : List α) (i : Nat) (d : α) (h : i < l.length) :
    l.set i (l.getD i d) = l := by
  induction l generalizing i with
  | nil => simp at h
  | cons a t ih =>
    cases i with
    | zero => rfl
    | succ n => simpa [List.getD] using ih n (by simpa using h)

theorem getD_of_len_le {α : Type} (l : List α) (i : Nat) (d : α) (h : l.length ≤ i) :
    l.getD i d = d := by
  induction l generalizing i with
  | nil => simp [List.getD]
  | cons a t ih =>
    cases i with
    | zero => simp at h
    | succ n => simpa [List.getD] using ih n (by simpa using h)

theorem lt_length_of_getD_ne {α : Type} (l : List α) (i : Nat) (d : α)
    (h : l.getD i d ≠ d) : i < l.length := by
  by_contra hge
  exact h (getD_of_len_le l i d (by omega))

theorem pyIndex_lt {n : Nat} {k : Int} {s : Nat} (h : pyIndex n k = some s) : s < n := by
  unfold pyIndex at h
  split at h
  · split at h
    · injection h with h; omega
    · exact absurd h (by simp)
  · split at h
    · injection h with h; omega
    · exact absurd h (by simp)

theorem royal_pos {f v : Nat} (h : royal f = some v) : 0 < v := by
  unfold royal at h
  split at h <;> first | (injection h with h; omega) | exact absurd h (by simp)

/-- Unfolding `challengeLoop` on a chance card that triggers a slap:
the arbiter's player receives the whole pile at the bottom of its hand, the
pile is emptied, `chances` is zeroed and the loop breaks. -/
theorem chalLoop_slap_step (slapFn : Nat → Int) (i s : Nat) (newCard : Card)
    (rest : List Card) (hands : List (List Card)) (pile : List Card)
    (chances : Nat) (challenger : Option Nat) (slapCount : Nat)
    (hch : chances ≠ 0) (hslap : slappable (newCard :: pile) = true)
    (hs : pyIndex (hands.set i rest).length (slapFn slapCount) = some s) :
    challengeLoop slapFn i (newCard :: rest) hands pile chances challenger slapCount
      = .ok ⟨(hands.set i rest).set s ((hands.set i rest).getD s [] ++ (newCard :: pile)),
             [], 0, challenger, slapCount + 1⟩ := by
  unfold challengeLoop
  rw [if_neg hch]
  dsimp only
  rw [hslap, hs]
  rfl

/-- Unfolding `challengeLoop` on a chance card that is itself a royal (and
triggers no slap): the acting player becomes the challenger, `chances`
becomes the royal's value and the loop breaks; no cards are transferred. -/
theorem chalLoop_royal_step (slapFn : Nat → Int) (i : Nat) (newCard : Card)
    (rest : List Card) (hands : List (List Card)) (pile : List Card)
    (chances v : Nat) (challenger : Option Nat) (slapCount : Nat)
    (hch : chances ≠ 0) (hslap : slappable (newCard :: pile) = false)
    (hroyal : royal newCard.face = some v) :
    challengeLoop slapFn i (newCard :: rest) hands pile chances challenger slapCount
      = .ok ⟨hands.set i rest, newCard :: pile, v, some i, slapCount⟩ := by
  unfold challengeLoop
  rw [if_neg hch]
  dsimp only
  rw [hslap, hroyal]
  rfl

/-- Unfolding `challengeLoop` on an ordinary chance card: pop, push,
decrement, continue. -/
theorem chalLoop_plain_step (slapFn : Nat → Int) (i : Nat) (newCard : Card)
    (rest : List Card) (hands : List (List Card)) (pile : List Card)
    (chances : Nat) (challenger : Option Nat) (slapCount : Nat)
    (hch : chances ≠ 0) (hslap : slappable (newCard :: pile) = false)
    (hroyal : royal newCard.face = none) :
    challengeLoop slapFn i (newCard :: rest) hands pile chances challenger slapCount
      = challengeLoop slapFn i rest (hands.set i rest) (newCard :: pile) (chances - 1)
          challenger slapCount := by
  conv_lhs => unfold challengeLoop
  rw [if_neg hch]
  dsimp only
  rw [hslap, hroyal]
  rfl

theorem chalLoop_zero (slapFn : Nat → Int) (i : Nat) (hand : List Card)
    (hands : List (List Card)) (pile : List Card) (challenger : Option Nat)
    (slapCount : Nat) :
    challengeLoop slapFn i hand hands pile 0 challenger slapCount
      = .ok ⟨hands, pile, 0, challenger, slapCount⟩ := by
  unfold challengeLoop
  rw [if_pos rfl]

/-- The `if chances == 0:` resolution after the loop: the pile goes to the
bottom of the challenger's hand, the pile is cleared and the challenge state
is cleared. -/
theorem chalTurn_resolve (slapFn : Nat → Int) (i : Nat) (hand : List Card)
    (hands : List (List Card)) (pile : List Card) (chances : Nat)
    (challenger : Option Nat) (slapCount : Nat) (h : List (List Card))
    (p : List Card) (c sc : Nat)
    (hloop : challengeLoop slapFn i hand hands pile chances challenger slapCount
      = .ok ⟨h, p, 0, some c, sc⟩)
    (hc : c < h.length) :
    challengedTurn slapFn i hand hands pile chances challenger slapCount
      = .ok ⟨h.set c (h.getD c [] ++ p), [], 0, none, sc⟩ := by
  unfold challengedTurn
  rw [hloop]
  dsimp only
  rw [if_pos rfl, if_pos hc]

/-- The challenged turn when the loop ends with `chances > 0`: no
resolution happens. -/
theorem chalTurn_pending (slapFn : Nat → Int) (i : Nat) (hand : List Card)
    (hands : List (List Card)) (pile : List Card) (chances : Nat)
    (challenger : Option Nat) (slapCount : Nat) (m : Mid)
    (hloop : challengeLoop slapFn i hand hands pile chances challenger slapCount = .ok m)
    (hm : m.chances ≠ 0) :
    challengedTurn slapFn i hand hands pile chances challenger slapCount = .ok m := by
  unfold challengedTurn
  rw [hloop]
  dsimp only
  rw [if_neg hm]


theorem simLoop_cont (f : Nat → Int) (fuel : Nat) (st st' : GameState)
    (h : turnStep f st = .cont st') : simLoop f (fuel + 1) st = simLoop f fuel st' := by
  conv_lhs => unfold simLoop
  rw [h]

theorem simLoop_finished (f : Nat → Int) (fuel : Nat) (st : GameState) (t w : Nat)
    (h : turnStep f st = .finished t w) : simLoop f (fuel + 1) st = some (.out t w) := by
  conv_lhs => unfold simLoop
  rw [h]

theorem stepN_cont (f : Nat → Int) (k : Nat) (st st' : GameState)
    (h : turnStep f st = .cont st') : stepN f (k + 1) st = stepN f k st' := by
  conv_lhs => unfold stepN
  rw [h]

theorem trick_init : initState trickDeck 2 = trickState0 := by decide

theorem trick_step0 :
    turnStep (fun _ => (0 : Int)) trickState0 = .cont trickState1 := by decide

theorem trick_step1 :
    turnStep (fun _ => (0 : Int)) trickState1 = .cont trickState2 := by decide

theorem trick_step2 :
    turnStep (fun _ => (0 : Int)) trickState2 = .cont trickState3 := by decide

theorem trick_step3 :
    turnStep (fun _ => (0 : Int)) trickState3 = .cont trickState4 := by decide

theorem trick_step4 :
    turnStep (fun _ => (0 : Int)) trickState4 = .cont trickState5 := by decide

theorem trick_step5 :
    turnStep (fun _ => (0 : Int)) trickState5 = .cont trickState6 := by decide

theorem trick_step6 :
    turnStep (fun _ => (0 : Int)) trickState6 = .cont trickState7 := by decide

theorem trick_step7 :
    turnStep (fun _ => (0 : Int)) trickState7 = .cont trickState8 := by decide

theorem trick_step8 :
    turnStep (fun _ => (0 : Int)) trickState8 = .cont trickState9 := by decide

theorem trick_step9 :
    turnStep (fun _ => (0 : Int)) trickState9 = .cont trickState10 := by decide

theorem trick_step10 :
    turnStep (fun _ => (0 : Int)) trickState10 = .cont trickState11 := by decide

theorem trick_step11 :
    turnStep (fun _ => (0 : Int)) trickState11 = .cont trickState12 := by decide

theorem trick_step12 :
    turnStep (fun _ => (0 : Int)) trickState12 = .cont trickState13 := by decide

theorem trick_step13 :
    turnStep (fun _ => (0 : Int)) trickState13 = .cont trickState14 := by decide

theorem trick_step14 :
    turnStep (fun _ => (0 : Int)) trickState14 = .cont trickState15 := by decide

theorem trick_step15 :
    turnStep (fun _ => (0 : Int)) trickState15 = .cont trickState16 := by decide

theorem trick_step16 :
    turnStep (fun _ => (0 : Int)) trickState16 = .finished 17 0 := by decide

theorem trick_stepN :
    stepN (fun _ => (0 : Int)) 16 (initState trickDeck 2) = some trickState16 := by
  rw [trick_init]
  show stepN (fun _ => (0 : Int)) (15 + 1) trickState0 = some trickState16
  rw [stepN_cont (fun _ => (0 : Int)) 15 trickState0 trickState1 trick_step0]
  show stepN (fun _ => (0 : Int)) (14 + 1) trickState1 = some trickState16
  rw [stepN_cont (fun _ => (0 : Int)) 14 trickState1 trickState2 trick_step1]
  show stepN (fun _ => (0 : Int)) (13 + 1) trickState2 = some trickState16
  rw [stepN_cont (fun _ => (0 : Int)) 13 trickState2 trickState3 trick_step2]
  show stepN (fun _ => (0 : Int)) (12 + 1) trickState3 = some trickState16
  rw [stepN_cont (fun _ => (0 : Int)) 12 trickState3 trickState4 trick_step3]
  show stepN (fun _ => (0 : Int)) (11 + 1) trickState4 = some trickState16
  rw [stepN_cont (fun _ => (0 : Int)) 11 trickState4 trickState5 trick_step4]
  show stepN (fun _ => (0 : Int)) (10 + 1) trickState5 = some trickState16
  rw [stepN_cont (fun _ => (0 : Int)) 10 trickState5 trickState6 trick_step5]
  show stepN (fun _ => (0 : Int)) (9 + 1) trickState6 = some trickState16
  rw [stepN_cont (fun _ => (0 : Int)) 9 trickState6 trickState7 trick_step6]
  show stepN (fun _ => (0 : Int)) (8 + 1) trickState7 = some trickState16
  rw [stepN_cont (fun _ => (0 : Int)) 8 trickState7 trickState8 trick_step7]
  show stepN (fun _ => (0 : Int)) (7 + 1) trickState8 = some trickState16
  rw [stepN_cont (fun _ => (0 : Int)) 7 trickState8 trickState9 trick_step8]
  show stepN (fun _ => (0 : Int)) (6 + 1) trickState9 = some trickState16
  rw [stepN_cont (fun _ => (0 : Int)) 6 trickState9 trickState10 trick_step9]
  show stepN (fun _ => (0 : Int)) (5 + 1) trickState10 = some trickState16
  rw [stepN_cont (fun _ => (0 : Int)) 5 trickState10 trickState11 trick_step10]
  show stepN (fun _ => (0 : Int)) (4 + 1) trickState11 = some trickState16
  rw [stepN_cont (fun _ => (0 : Int)) 4 trickState11 trickState12 trick_step11]
  show stepN (fun _ => (0 : Int)) (3 + 1) trickState12 = some trickState16
  rw [stepN_cont (fun _ => (0 : Int)) 3 trickState12 trickState13 trick_step12]
  show stepN (fun _ => (0 : Int)) (2 + 1) trickState13 = some trickState16
  rw [stepN_cont (fun _ => (0 : Int)) 2 trickState13 trickState14 trick_step13]
  show stepN (fun _ => (0 : Int)) (1 + 1) trickState14 = some trickState16
  rw [stepN_cont (fun _ => (0 : Int)) 1 trickState14 trickState15 trick_step14]
  show stepN (fun _ => (0 : Int)) (0 + 1) trickState15 = some trickState16
  rw [stepN_cont (fun _ => (0 : Int)) 0 trickState15 trickState16 trick_step15]
  rfl

theorem trick_sim :
    simulate_game trickDeck 2 (fun _ => (0 : Int)) 100 = some (.out 17 0) := by
  unfold simulate_game
  rw [if_neg (by decide), trick_init]
  show simLoop (fun _ => (0 : Int)) (99 + 1) trickState0 = some (.out 17 0)
  rw [simLoop_cont (fun _ => (0 : Int)) 99 trickState0 trickState1 trick_step0]
  show simLoop (fun _ => (0 : Int)) (98 + 1) trickState1 = some (.out 17 0)
  rw [simLoop_cont (fun _ => (0 : Int)) 98 trickState1 trickState2 trick_step1]
  show simLoop (fun _ => (0 : Int)) (97 + 1) trickState2 = some (.out 17 0)
  rw [simLoop_cont (fun _ => (0 : Int)) 97 trickState2 trickState3 trick_step2]
  show simLoop (fun _ => (0 : Int)) (96 + 1) trickState3 = some (.out 17 0)
  rw [simLoop_cont (fun _ => (0 : Int)) 96 trickState3 trickState4 trick_step3]
  show simLoop (fun _ => (0 : Int)) (95 + 1) trickState4 = some (.out 17 0)
  rw [simLoop_cont (fun _ => (0 : Int)) 95 trickState4 trickState5 trick_step4]
  show simLoop (fun _ => (0 : Int)) (94 + 1) trickState5 = some (.out 17 0)
  rw [simLoop_cont (fun _ => (0 : Int)) 94 trickState5 trickState6 trick_step5]
  show simLoop (fun _ => (0 : Int)) (93 + 1) trickState6 = some (.out 17 0)
  rw [simLoop_cont (fun _ => (0 : Int)) 93 trickState6 trickState7 trick_step6]
  show simLoop (fun _ => (0 : Int)) (92 + 1) trickState7 = some (.out 17 0)
  rw [simLoop_cont (fun _ => (0 : Int)) 92 trickState7 trickState8 trick_step7]
  show simLoop (fun _ => (0 : Int)) (91 + 1) trickState8 = some (.out 17 0)
  rw [simLoop_cont (fun _ => (0 : Int)) 91 trickState8 trickState9 trick_step8]
  show simLoop (fun _ => (0 : Int)) (90 + 1) trickState9 = some (.out 17 0)
  rw [simLoop_cont (fun _ => (0 : Int)) 90 trickState9 trickState10 trick_step9]
  show simLoop (fun _ => (0 : Int)) (89 + 1) trickState10 = some (.out 17 0)
  rw [simLoop_cont (fun _ => (0 : Int)) 89 trickState10 trickState11 trick_step10]
  show simLoop (fun _ => (0 : Int)) (88 + 1) trickState11 = some (.out 17 0)
  rw [simLoop_cont (fun _ => (0 : Int)) 88 trickState11 trickState12 trick_step11]
  show simLoop (fun _ => (0 : Int)) (87 + 1) trickState12 = some (.out 17 0)
  rw [simLoop_cont (fun _ => (0 : Int)) 87 trickState12 trickState13 trick_step12]
  show simLoop (fun _ => (0 : Int)) (86 + 1) trickState13 = some (.out 17 0)
  rw [simLoop_cont (fun _ => (0 : Int)) 86 trickState13 trickState14 trick_step13]
  show simLoop (fun _ => (0 : Int)) (85 + 1) trickState14 = some (.out 17 0)
  rw [simLoop_cont (fun _ => (0 : Int)) 85 trickState14 trickState15 trick_step14]
  show simLoop (fun _ => (0 : Int)) (84 + 1) trickState15 = some (.out 17 0)
  rw [simLoop_cont (fun _ => (0 : Int)) 84 trickState15 trickState16 trick_step15]
  show simLoop (fun _ => (0 : Int)) (83 + 1) trickState16 = some (.out 17 0)
  rw [simLoop_finished (fun _ => (0 : Int)) 83 trickState16 17 0 trick_step16]

theorem newdeck_init : initState new_deck 2 = newDeckState0 := by decide

theorem newdeck_step0 :
    turnStep (fun _ => (0 : Int)) newDeckState0 = .cont newDeckState1 := by decide

theorem newdeck_stepN :
    stepN (fun _ => (0 : Int)) 1 (initState new_deck 2) = some newDeckState1 := by
  rw [newdeck_init]
  show stepN (fun _ => (0 : Int)) (0 + 1) newDeckState0 = some newDeckState1
  rw [stepN_cont (fun _ => (0 : Int)) 0 newDeckState0 newDeckState1 newdeck_step0]
  rfl

end Ratscrew

/-! ## Claim theorems -/

namespace Ratscrew

/-- **C8**.  The slap detector returns `true` iff the pile has at least two
cards whose top two faces match, or at least three cards whose top and
third-from-top faces match; it is `false` on piles of size 0 or 1 and on all
other configurations, and it compares faces only — replacing every suit by
anything leaves its value unchanged.  (The list head is the pile top.) -/
theorem claim8_slap_detector :
    (∀ pile : List Card,
      slappable pile = true ↔
        ((∃ a b rest, pile = a :: b :: rest ∧ a.face = b.face) ∨
         (∃ a b c rest, pile = a :: b :: c :: rest ∧ a.face = c.face))) ∧
    (∀ (pile : List Card) (f : Card → Nat),
      slappable (pile.map fun c => Card.mk c.face (f c)) = slappable pile) := by
  constructor
  · intro pile
    match pile with
    | [] => simp [slappable]
    | [a] => simp [slappable]
    | [a, b] =>
      simp only [slappable, List.cons.injEq, beq_iff_eq]
      constructor
      · intro h; exact Or.inl ⟨a, b, [], ⟨rfl, rfl, rfl⟩, h⟩
      · rintro (⟨a1, b1, r1, ⟨rfl, rfl, _⟩, h⟩ | ⟨a1, b1, c1, r1, ⟨rfl, rfl, hr⟩, h⟩)
        · exact h
        · cases hr
    | a :: b :: c :: r =>
      simp only [slappable, List.cons.injEq, Bool.or_eq_true, beq_iff_eq]
      constructor
      · rintro (h | h)
        · exact Or.inl ⟨a, b, c :: r, ⟨rfl, rfl, rfl⟩, h⟩
        · exact Or.inr ⟨a, b, c, r, ⟨rfl, rfl, rfl, rfl⟩, h⟩
      · rintro (⟨a1, b1, r1, ⟨rfl, rfl, _⟩, h⟩ | ⟨a1, b1, c1, r1, ⟨rfl, rfl, rfl, rfl⟩, h⟩)
        · exact Or.inl h
        · exact Or.inr h
  · intro pile f
    match pile with
    | [] => rfl
    | [a] => rfl
    | [a, b] => simp [slappable]
    | a :: b :: c :: r => simp [slappable]

/-- **C4**.  During a challenge, the slap check runs right after each chance
card is pushed and takes precedence over everything else: if the pile (with
the just-pushed card on top) is slappable, the whole pile is appended at the
bottom of the arbiter's chosen player's hand (any index the arbiter resolves
to, including an empty-handed player), the pile is cleared, `chances` is
zeroed, the challenger is cleared to `none` (back to `NORMAL_PLAY`) and the
arbiter is consulted exactly once — with no hypothesis on how many chances
were left or on whether the pushed card is a royal. -/
theorem claim4_slap_interrupts_challenge (slapFn : Nat → Int) (i s c : Nat)
    (newCard : Card) (rest : List Card) (hands : List (List Card))
    (pile : List Card) (chances slapCount : Nat)
    (hch : chances ≠ 0)
    (hslap : slappable (newCard :: pile) = true)
    (hs : pyIndex (hands.set i rest).length (slapFn slapCount) = some s)
    (hc : c < hands.length) :
    challengedTurn slapFn i (newCard :: rest) hands pile chances (some c) slapCount
      = .ok ⟨(hands.set i rest).set s ((hands.set i rest).getD s [] ++ (newCard :: pile)),
             [], 0, none, slapCount + 1⟩ := by
  have hstep := chalLoop_slap_step slapFn i s newCard rest hands pile chances (some c)
    slapCount hch hslap hs
  have hc2 : c < ((hands.set i rest).set s
      ((hands.set i rest).getD s [] ++ (newCard :: pile))).length := by
    simpa [List.length_set] using hc
  have hres := chalTurn_resolve slapFn i (newCard :: rest) hands pile chances (some c)
    slapCount _ [] c (slapCount + 1) hstep hc2
  rw [hres, List.append_nil, set_getD_self _ c [] hc2]

/-- Witness for C4: mid-challenge with three chances left, the challenged
player pushes a Jack that doubles the Jack on the pile; the arbiter picks
the empty-handed player 1, who receives both cards; challenge state resets
to none/0. -/
theorem claim4_witness :
    (3 ≠ 0 ∧ slappable [⟨11, 1⟩, ⟨11, 0⟩] = true ∧
      pyIndex ([[⟨2, 0⟩], []].set 1 ([] : List Card)).length ((fun _ => (1 : Int)) 0) = some 1 ∧
      0 < ([[⟨2, 0⟩], []] : List (List Card)).length) ∧
    challengedTurn (fun _ => (1 : Int)) 1 [⟨11, 1⟩] [[⟨2, 0⟩], [⟨11, 1⟩]] [⟨11, 0⟩] 3 (some 0) 0
      = .ok ⟨[[⟨2, 0⟩], [⟨11, 1⟩, ⟨11, 0⟩]], [], 0, none, 1⟩ := by
  constructor
  · exact ⟨by decide, by decide, by decide, by decide⟩
  · have := claim4_slap_interrupts_challenge (fun _ => (1 : Int)) 1 1 0 ⟨11, 1⟩ []
      [[⟨2, 0⟩], [⟨11, 1⟩]] [⟨11, 0⟩] 3 0 (by decide) (by decide) (by decide) (by decide)
    simpa using this

/-- **C5**.  If the challenged player's chance card is itself a royal and no
slap fires on that push, the acting player becomes the new challenger,
`chances` is set to the royal table value (Jack→1, Queen→2, King→3, Ace→4),
the challenge stays active (challenger is `some`), the loop breaks after
this single card, and no cards move to the previous challenger: the only
hand that changes is the acting player's, by the pop. -/
theorem claim5_royal_interrupt (slapFn : Nat → Int) (i v : Nat) (newCard : Card)
    (rest : List Card) (hands : List (List Card)) (pile : List Card)
    (chances : Nat) (challenger : Option Nat) (slapCount : Nat)
    (hch : chances ≠ 0)
    (hslap : slappable (newCard :: pile) = false)
    (hroyal : royal newCard.face = some v) :
    challengedTurn slapFn i (newCard :: rest) hands pile chances challenger slapCount
      = .ok ⟨hands.set i rest, newCard :: pile, v, some i, slapCount⟩
    ∧ (royal 11 = some 1 ∧ royal 12 = some 2 ∧ royal 13 = some 3 ∧ royal 14 = some 4)
    ∧ (∀ j d, j ≠ i → (hands.set i rest).getD j d = hands.getD j d) := by
  refine ⟨?_, ⟨rfl, rfl, rfl, rfl⟩, ?_⟩
  · exact chalTurn_pending slapFn i (newCard :: rest) hands pile chances challenger slapCount
      _ (chalLoop_royal_step slapFn i newCard rest hands pile chances v challenger slapCount
          hch hslap hroyal)
      (by have := royal_pos hroyal; simpa using Nat.pos_iff_ne_zero.mp this)
  · intro j d hj
    exact getD_set_ne hands i j rest d (Ne.symm hj)

/-- Witness for C5: the challenger played a Jack (1 chance); the challenged
player's chance card is a Queen; they become the new challenger with 2
chances, the pile keeps both cards, and the old challenger receives
nothing. -/
theorem claim5_witness :
    (1 ≠ 0 ∧ slappable [⟨12, 0⟩, ⟨11, 0⟩] = false ∧ royal (12 : Nat) = some 2) ∧
    challengedTurn (fun _ => (0 : Int)) 1 [⟨12, 0⟩, ⟨7, 1⟩] [[⟨3, 0⟩], [⟨12, 0⟩, ⟨7, 1⟩]]
        [⟨11, 0⟩] 1 (some 0) 0
      = .ok ⟨[[⟨3, 0⟩], [⟨7, 1⟩]], [⟨12, 0⟩, ⟨11, 0⟩], 2, some 1, 0⟩ := by
  constructor
  · exact ⟨by decide, by decide, by decide⟩
  · have := (claim5_royal_interrupt (fun _ => (0 : Int)) 1 2 ⟨12, 0⟩ [⟨7, 1⟩]
      [[⟨3, 0⟩], [⟨12, 0⟩, ⟨7, 1⟩]] [⟨11, 0⟩] 1 (some 0) 0
      (by decide) (by decide) (by decide)).1
    simpa using this

/-- **C6**.  First part: whenever the challenge loop ends with
`chances = 0`, the whole pile is appended at the bottom of the challenger's
hand, the pile is cleared, the challenge state is cleared to `none`/`0`.
Second part, at the level of a full turn: with one chance left, a non-royal
non-slapping chance card resolves the challenge — the pile (the challenge
royal plus this one chance card, when the pile held only the royal) goes
entirely to the challenger, and the rotation continues with the player
after the one who just played (`handIndex + 1` mod player count). -/
theorem claim6_exhaustion_resolution :
    (∀ (slapFn : Nat → Int) (i : Nat) (hand : List Card) (hands : List (List Card))
        (pile : List Card) (chances : Nat) (challenger : Option Nat) (slapCount : Nat)
        (h : List (List Card)) (p : List Card) (c sc : Nat),
      challengeLoop slapFn i hand hands pile chances challenger slapCount
        = .ok ⟨h, p, 0, some c, sc⟩ →
      c < h.length →
      challengedTurn slapFn i hand hands pile chances challenger slapCount
        = .ok ⟨h.set c (h.getD c [] ++ p), [], 0, none, sc⟩) ∧
    (∀ (f : Nat → Int) (st : GameState) (c : Nat) (newCard : Card) (rest : List Card),
      st.challenger = some c →
      st.chances = 1 →
      c < st.hands.length →
      st.hands.countP (fun h => decide (0 < h.length)) ≠ 1 →
      st.hands.getD st.handIndex [] = newCard :: rest →
      slappable (newCard :: st.pile) = false →
      royal newCard.face = none →
      turnStep f st = .cont ⟨(st.hands.set st.handIndex rest).set c
          ((st.hands.set st.handIndex rest).getD c [] ++ (newCard :: st.pile)),
        [], 0, none, st.turn + 1, (st.handIndex + 1) % st.hands.length, st.slapCount⟩) := by
  constructor
  · intro slapFn i hand hands pile chances challenger slapCount h p c sc hloop hc
    exact chalTurn_resolve slapFn i hand hands pile chances challenger slapCount h p c sc
      hloop hc
  · intro f st c newCard rest hchal hchance hc hcnt hhand hslap hroyal
    have hloop : challengeLoop f st.handIndex (newCard :: rest) st.hands st.pile 1 (some c)
        st.slapCount
        = .ok ⟨st.hands.set st.handIndex rest, newCard :: st.pile, 0, some c, st.slapCount⟩ := by
      rw [chalLoop_plain_step f st.handIndex newCard rest st.hands st.pile 1 (some c)
        st.slapCount (by omega) hslap hroyal]
      exact chalLoop_zero f st.handIndex rest (st.hands.set st.handIndex rest)
        (newCard :: st.pile) (some c) st.slapCount
    have hct := chalTurn_resolve f st.handIndex (newCard :: rest) st.hands st.pile 1 (some c)
      st.slapCount (st.hands.set st.handIndex rest) (newCard :: st.pile) c st.slapCount hloop
      (by simpa [List.length_set] using hc)
    unfold turnStep
    rw [if_neg hcnt]
    dsimp only
    rw [hhand, hchal, hchance, hct]
    rfl

/-- Witness for C6: challenger 0 played a Jack (pile `[J]`, 1 chance);
player 1's single chance card is a 5; the 2-card pile goes entirely to the
challenger and play returns to normal with player 0 next. -/
theorem claim6_witness :
    (royal (5 : Nat) = none ∧ slappable [⟨5, 1⟩, ⟨11, 2⟩] = false) ∧
    turnStep (fun _ => (0 : Int))
        ⟨[[⟨4, 0⟩], [⟨5, 1⟩, ⟨9, 3⟩]], [⟨11, 2⟩], 1, some 0, 4, 1, 0⟩
      = .cont ⟨[[⟨4, 0⟩, ⟨5, 1⟩, ⟨11, 2⟩], [⟨9, 3⟩]], [], 0, none, 5, 0, 0⟩ := by
  constructor
  · exact ⟨by decide, by decide⟩
  · have := claim6_exhaustion_resolution.2 (fun _ => (0 : Int))
      ⟨[[⟨4, 0⟩], [⟨5, 1⟩, ⟨9, 3⟩]], [⟨11, 2⟩], 1, some 0, 4, 1, 0⟩ 0 ⟨5, 1⟩ [⟨9, 3⟩]
      (by decide) (by decide) (by decide) (by decide) (by decide) (by decide) (by decide)
    simpa using this

/-- **C7**.  Both pile-to-hand transfers — the slap transfer inside the
challenge loop and the exhaustion resolution — produce `oldHand ++ pileList`
where `pileList` is the pile listed top (most recent) first; equivalently,
in the spec's bottom-first reading of a pile, the pile is reversed and
appended at the bottom end of the hand.  The last conjunct spells out the
orientation: the old hand is an unchanged prefix, the transferred block
follows it starting with the former pile top (adjacent to the old bottom),
and the earliest pile card becomes the new outermost (last) card. -/
theorem claim7_pile_transfer_orientation :
    (∀ (slapFn : Nat → Int) (i s : Nat) (newCard : Card) (rest : List Card)
        (hands : List (List Card)) (pile : List Card) (chances : Nat)
        (challenger : Option Nat) (slapCount : Nat),
      chances ≠ 0 → slappable (newCard :: pile) = true →
      pyIndex (hands.set i rest).length (slapFn slapCount) = some s →
      challengeLoop slapFn i (newCard :: rest) hands pile chances challenger slapCount
        = .ok ⟨(hands.set i rest).set s ((hands.set i rest).getD s [] ++ (newCard :: pile)),
               [], 0, challenger, slapCount + 1⟩) ∧
    (∀ (slapFn : Nat → Int) (i : Nat) (hand : List Card) (hands : List (List Card))
        (pile : List Card) (chances : Nat) (challenger : Option Nat) (slapCount : Nat)
        (h : List (List Card)) (p : List Card) (c sc : Nat),
      challengeLoop slapFn i hand hands pile chances challenger slapCount
        = .ok ⟨h, p, 0, some c, sc⟩ →
      c < h.length →
      challengedTurn slapFn i hand hands pile chances challenger slapCount
        = .ok ⟨h.set c (h.getD c [] ++ p), [], 0, none, sc⟩) ∧
    (∀ (H P : List Card),
      (H ++ P).take H.length = H ∧
      (H ++ P).drop H.length = P ∧
      (H ++ P).get? H.length = P.head? ∧
      (P ≠ [] → (H ++ P).getLast? = P.getLast?)) := by
  refine ⟨?_, ?_, ?_⟩
  · intro slapFn i s newCard rest hands pile chances challenger slapCount hch hslap hs
    exact chalLoop_slap_step slapFn i s newCard rest hands pile chances challenger slapCount
      hch hslap hs
  · intro slapFn i hand hands pile chances challenger slapCount h p c sc hloop hc
    exact chalTurn_resolve slapFn i hand hands pile chances challenger slapCount h p c sc
      hloop hc
  · intro H P
    refine ⟨by simp, by simp, ?_, ?_⟩
    · induction H with
      | nil => cases P <;> rfl
      | cons a t ih => simpa using ih
    · intro hP
      rw [List.getLast?_append]
      cases hlast : P.getLast? with
      | none => exact absurd (List.getLast?_eq_none_iff.mp hlast) hP
      | some b => rfl

/-- Witness for C7: player 1 slaps a 2-card pile onto their 1-card hand; the
former pile top lands right after the old hand and the earliest pile card
is the new last card; and a concrete resolution transfer. -/
theorem claim7_witness :
    challengeLoop (fun _ => (1 : Int)) 1 [⟨11, 1⟩, ⟨8, 2⟩] [[⟨2, 0⟩], [⟨11, 1⟩, ⟨8, 2⟩]]
        [⟨11, 0⟩] 3 (some 0) 5
      = .ok ⟨[[⟨2, 0⟩], [⟨8, 2⟩, ⟨11, 1⟩, ⟨11, 0⟩]], [], 0, some 0, 6⟩ ∧
    (([⟨8, 2⟩] ++ [⟨11, 1⟩, ⟨11, 0⟩] : List Card).get? 1 = some ⟨11, 1⟩ ∧
      ([⟨8, 2⟩] ++ [⟨11, 1⟩, ⟨11, 0⟩] : List Card).getLast? = some ⟨11, 0⟩) := by
  constructor
  · have := claim7_pile_transfer_orientation.1 (fun _ => (1 : Int)) 1 1 ⟨11, 1⟩ [⟨8, 2⟩]
      [[⟨2, 0⟩], [⟨11, 1⟩, ⟨8, 2⟩]] [⟨11, 0⟩] 3 (some 0) 5
      (by decide) (by decide) (by decide)
    simpa using this
  · exact ⟨by decide, by decide⟩

/-- **C9** (behaviour at invalid configurations, documenting the divergence
from the spec's fail-fast requirement).  `deal` with `player_count = 0`
silently returns no hands and `simulate_game` silently returns `None`; a
negative out-of-range arbiter index is wrapped by Python indexing and the
pile is silently appended to the last player's hand; only a non-negative
out-of-range index raises, and it raises `IndexError`, before any
transfer. -/
theorem claim9_no_validation :
    deal new_deck 0 = [] ∧
    (∀ (fuel : Nat) (slapFn : Nat → Int),
      simulate_game new_deck 0 slapFn fuel = some SimResult.noneReturn) ∧
    pyIndex 2 (-1) = some 1 ∧
    challengedTurn (fun _ => (-1 : Int)) 1 [⟨12, 2⟩] [[⟨5, 0⟩], [⟨12, 2⟩]] [⟨12, 0⟩] 1
        (some 0) 0
      = .ok ⟨[[⟨5, 0⟩], [⟨12, 2⟩, ⟨12, 0⟩]], [], 0, none, 1⟩ ∧
    pyIndex 2 2 = none ∧
    challengedTurn (fun _ => (2 : Int)) 1 [⟨12, 2⟩] [[⟨5, 0⟩], [⟨12, 2⟩]] [⟨12, 0⟩] 1
        (some 0) 0
      = .err .indexErr := by
  refine ⟨by decide, fun fuel slapFn => rfl, by decide, by decide, by decide, by decide⟩

/-- **C10**.  In a `NORMAL_PLAY` step (no active challenge) the engine never
consults the slap arbiter: the step result does not depend on the arbiter at
all, the slap counter is unchanged, and the played card is simply left on
top of the pile even when it makes the pile slappable. -/
theorem claim10_no_slap_in_normal_play :
    (∀ (st : GameState) (f g : Nat → Int),
        st.challenger = none → turnStep f st = turnStep g st) ∧
    (∀ (st st' : GameState) (f : Nat → Int),
        st.challenger = none → turnStep f st = .cont st' →
        st'.slapCount = st.slapCount) ∧
    (∀ (st st' : GameState) (f : Nat → Int) (c : Card) (rest : List Card),
        st.challenger = none →
        st.hands.countP (fun h => decide (0 < h.length)) ≠ 1 →
        st.hands.getD st.handIndex [] = c :: rest →
        turnStep f st = .cont st' → st'.pile = c :: st.pile) := by
  refine ⟨?_, ?_, ?_⟩
  · intro st f g hch
    unfold turnStep
    rw [hch]
  · intro st st' f hch hstep
    unfold turnStep at hstep
    rw [hch] at hstep
    dsimp only at hstep
    split at hstep
    · cases hstep
    · split at hstep
      · cases hstep; rfl
      · split at hstep
        · cases hstep; rfl
        · split at hstep <;> (cases hstep; rfl)
  · intro st st' f c rest hch hcnt hhand hstep
    unfold turnStep at hstep
    rw [hch, hhand] at hstep
    dsimp only at hstep
    split at hstep
    · exact absurd (by assumption) hcnt
    · split at hstep
      · simp [List.isEmpty] at *
      · split at hstep <;> (cases hstep; rfl)

/-- Witness for C10: in `NORMAL_PLAY` player 0 plays a Queen onto a pile
whose top is already a Queen — a slappable double — yet the step ignores
the arbiter entirely, leaves the pile un-slapped and the slap counter
unchanged (a challenge does start, since a Queen is a royal). -/
theorem claim10_witness :
    (⟨[[⟨12, 0⟩, ⟨3, 0⟩], [⟨12, 1⟩]], [⟨12, 2⟩], 0, none, 5, 0, 7⟩ : GameState).challenger
        = none ∧
    slappable [⟨12, 0⟩, ⟨12, 2⟩] = true ∧
    turnStep (fun _ => (0 : Int)) ⟨[[⟨12, 0⟩, ⟨3, 0⟩], [⟨12, 1⟩]], [⟨12, 2⟩], 0, none, 5, 0, 7⟩
      = turnStep (fun _ => (9 : Int))
          ⟨[[⟨12, 0⟩, ⟨3, 0⟩], [⟨12, 1⟩]], [⟨12, 2⟩], 0, none, 5, 0, 7⟩ ∧
    (⟨[[⟨3, 0⟩], [⟨12, 1⟩]], [⟨12, 0⟩, ⟨12, 2⟩], 2, some 0, 6, 1, 7⟩ : GameState).slapCount
        = (⟨[[⟨12, 0⟩, ⟨3, 0⟩], [⟨12, 1⟩]], [⟨12, 2⟩], 0, none, 5, 0, 7⟩ : GameState).slapCount ∧
    (⟨[[⟨3, 0⟩], [⟨12, 1⟩]], [⟨12, 0⟩, ⟨12, 2⟩], 2, some 0, 6, 1, 7⟩ : GameState).pile
        = ⟨12, 0⟩ :: (⟨[[⟨12, 0⟩, ⟨3, 0⟩], [⟨12, 1⟩]], [⟨12, 2⟩], 0, none, 5, 0, 7⟩
            : GameState).pile := by
  refine ⟨rfl, by decide, ?_, ?_, ?_⟩
  · exact claim10_no_slap_in_normal_play.1
      ⟨[[⟨12, 0⟩, ⟨3, 0⟩], [⟨12, 1⟩]], [⟨12, 2⟩], 0, none, 5, 0, 7⟩ _ _ rfl
  · exact claim10_no_slap_in_normal_play.2.1
      ⟨[[⟨12, 0⟩, ⟨3, 0⟩], [⟨12, 1⟩]], [⟨12, 2⟩], 0, none, 5, 0, 7⟩
      ⟨[[⟨3, 0⟩], [⟨12, 1⟩]], [⟨12, 0⟩, ⟨12, 2⟩], 2, some 0, 6, 1, 7⟩
      (fun _ => (0 : Int)) rfl (by decide)
  · exact claim10_no_slap_in_normal_play.2.2
      ⟨[[⟨12, 0⟩, ⟨3, 0⟩], [⟨12, 1⟩]], [⟨12, 2⟩], 0, none, 5, 0, 7⟩
      ⟨[[⟨3, 0⟩], [⟨12, 1⟩]], [⟨12, 0⟩, ⟨12, 2⟩], 2, some 0, 6, 1, 7⟩
      (fun _ => (0 : Int)) ⟨12, 0⟩ [⟨3, 0⟩] rfl (by decide) (by decide) (by decide)

/-! ### Card-conservation machinery -/

/-- Replacing hand `i`: the cards of the new hand list plus the old entry
equal the cards of the old hand list plus the new entry. -/
theorem flatten_set_cards (hands : List (List Card)) (i : Nat) (h' : List Card)
    (hi : i < hands.length) :
    ((hands.set i h').flatten : Multiset Card) + (hands.getD i [] : List Card)
      = ((hands.flatten : List Card) : Multiset Card) + (h' : List Card) := by
  induction hands generalizing i with
  | nil => simp at hi
  | cons a t ih =>
    cases i with
    | zero =>
      simp [List.getD, ← Multiset.coe_add]
      abel
    | succ n =>
      have hn : n < t.length := by simpa using hi
      have := ih n hn
      simp only [List.set, List.flatten_cons, List.getD_cons_succ, ← Multiset.coe_add] at *
      calc (↑a + ↑(t.set n h').flatten : Multiset Card) + ↑(t.getD n [])
          = ↑a + ((↑(t.set n h').flatten : Multiset Card) + ↑(t.getD n [])) := by abel
        _ = ↑a + ((↑t.flatten : Multiset Card) + ↑h') := by rw [this]
        _ = (↑a + ↑t.flatten : Multiset Card) + ↑h' := by abel

/-- Popping the top card of hand `i` removes exactly that card from the
hands' multiset. -/
theorem flatten_set_pop (hands : List (List Card)) (i : Nat) (newCard : Card)
    (rest : List Card) (hg : hands.getD i [] = newCard :: rest) (hi : i < hands.length) :
    ((hands.set i rest).flatten : Multiset Card) + {newCard}
      = (hands.flatten : List Card) := by
  have h := flatten_set_cards hands i rest hi
  rw [hg] at h
  have h2 : ((hands.set i rest).flatten : Multiset Card) + ({newCard} + (rest : Multiset Card))
      = ((hands.flatten : List Card) : Multiset Card) + (rest : Multiset Card) := by
    rw [← h, Multiset.singleton_add, Multiset.cons_coe]
  have h3 : (((hands.set i rest).flatten : Multiset Card) + {newCard}) + (rest : Multiset Card)
      = ((hands.flatten : List Card) : Multiset Card) + (rest : Multiset Card) := by
    rw [← h2]; abel
  exact add_right_cancel h3

/-- Pop-and-push: cards are conserved when hand `i` plays its top card onto
the pile. -/
theorem flatten_set_push (hands : List (List Card)) (i : Nat) (newCard : Card)
    (rest : List Card) (pile : List Card)
    (hg : hands.getD i [] = newCard :: rest) (hi : i < hands.length) :
    ((hands.set i rest).flatten : Multiset Card) + ((newCard :: pile : List Card) : Multiset Card)
      = ((hands.flatten : List Card) : Multiset Card) + (pile : Multiset Card) := by
  have := flatten_set_pop hands i newCard rest hg hi
  calc ((hands.set i rest).flatten : Multiset Card) + ((newCard :: pile : List Card) : Multiset Card)
      = ((hands.set i rest).flatten : Multiset Card) + ({newCard} + (pile : Multiset Card)) := by
        rw [Multiset.singleton_add, Multiset.cons_coe]
    _ = (((hands.set i rest).flatten : Multiset Card) + {newCard}) + (pile : Multiset Card) := by
        abel
    _ = ((hands.flatten : List Card) : Multiset Card) + (pile : Multiset Card) := by rw [this]

/-- Appending a block to hand `s` adds exactly that block to the hands'
multiset. -/
theorem flatten_set_transfer (hands : List (List Card)) (s : Nat) (p : List Card)
    (hs : s < hands.length) :
    ((hands.set s (hands.getD s [] ++ p)).flatten : Multiset Card)
      = ((hands.flatten : List Card) : Multiset Card) + (p : Multiset Card) := by
  have h := flatten_set_cards hands s (hands.getD s [] ++ p) hs
  have h2 : ((hands.getD s [] ++ p : List Card) : Multiset Card)
      = (hands.getD s [] : Multiset Card) + (p : Multiset Card) := by
    rw [Multiset.coe_add]
  rw [h2] at h
  have h3 : ((hands.set s (hands.getD s [] ++ p)).flatten : Multiset Card)
        + (hands.getD s [] : Multiset Card)
      = (((hands.flatten : List Card) : Multiset Card) + (p : Multiset Card))
        + (hands.getD s [] : Multiset Card) := by
    rw [h]; abel
  exact add_right_cancel h3

/-- Card conservation through the challenge loop, together with
preservation of the number of players.  The loop is entered with `hand`
aliasing `hands[i]`. -/
theorem chalLoop_cards (slapFn : Nat → Int) (i : Nat) :
    ∀ (hand : List Card) (hands : List (List Card)) (pile : List Card)
      (chances : Nat) (challenger : Option Nat) (slapCount : Nat) (m : Mid),
      hands.getD i [] = hand → i < hands.length →
      challengeLoop slapFn i hand hands pile chances challenger slapCount = .ok m →
      ((m.hands.flatten : Multiset Card) + (m.pile : Multiset Card)
          = ((hands.flatten : List Card) : Multiset Card) + (pile : Multiset Card))
        ∧ m.hands.length = hands.length := by
  intro hand
  induction hand with
  | nil =>
    intro hands pile chances challenger slapCount m hg hi hrun
    unfold challengeLoop at hrun
    split at hrun
    · cases hrun; exact ⟨rfl, rfl⟩
    · cases hrun; exact ⟨rfl, rfl⟩
  | cons newCard rest ih =>
    intro hands pile chances challenger slapCount m hg hi hrun
    by_cases hch : chances = 0
    · subst hch
      rw [chalLoop_zero] at hrun
      cases hrun
      exact ⟨rfl, rfl⟩
    · by_cases hslap : slappable (newCard :: pile) = true
      · unfold challengeLoop at hrun
        rw [if_neg hch] at hrun
        dsimp only at hrun
        rw [hslap] at hrun
        cases hpi : pyIndex (hands.set i rest).length (slapFn slapCount) with
        | none => rw [hpi] at hrun; cases hrun
        | some s =>
          rw [hpi] at hrun
          cases hrun
          have hs : s < (hands.set i rest).length := pyIndex_lt hpi
          constructor
          · dsimp only
            rw [flatten_set_transfer (hands.set i rest) s (newCard :: pile) hs]
            have := flatten_set_push hands i newCard rest pile hg hi
            calc (((hands.set i rest).flatten : List Card) : Multiset Card)
                  + ((newCard :: pile : List Card) : Multiset Card)
                  + (([] : List Card) : Multiset Card)
                = ((hands.set i rest).flatten : Multiset Card)
                  + ((newCard :: pile : List Card) : Multiset Card) := by simp
              _ = ((hands.flatten : List Card) : Multiset Card) + (pile : Multiset Card) := this
          · simp [List.length_set]
      · have hslapF : slappable (newCard :: pile) = false := by
          simpa using hslap
        cases hroyal : royal newCard.face with
        | some v =>
          rw [chalLoop_royal_step slapFn i newCard rest hands pile chances v challenger
            slapCount hch hslapF hroyal] at hrun
          cases hrun
          exact ⟨flatten_set_push hands i newCard rest pile hg hi, by simp [List.length_set]⟩
        | none =>
          rw [chalLoop_plain_step slapFn i newCard rest hands pile chances challenger
            slapCount hch hslapF hroyal] at hrun
          have hg' : (hands.set i rest).getD i [] = rest := getD_set_self hands i rest [] hi
          have hi' : i < (hands.set i rest).length := by simpa [List.length_set] using hi
          obtain ⟨hcons, hlen⟩ := ih (hands.set i rest) (newCard :: pile) (chances - 1)
            challenger slapCount m hg' hi' hrun
          constructor
          · rw [hcons]
            exact flatten_set_push hands i newCard rest pile hg hi
          · rw [hlen]; simp [List.length_set]

/-- Card conservation through a whole challenged turn. -/
theorem chalTurn_cards (slapFn : Nat → Int) (i : Nat) (hand : List Card)
    (hands : List (List Card)) (pile : List Card) (chances : Nat)
    (challenger : Option Nat) (slapCount : Nat) (m : Mid)
    (hg : hands.getD i [] = hand) (hi : i < hands.length)
    (hrun : challengedTurn slapFn i hand hands pile chances challenger slapCount = .ok m) :
    ((m.hands.flatten : Multiset Card) + (m.pile : Multiset Card)
        = ((hands.flatten : List Card) : Multiset Card) + (pile : Multiset Card))
      ∧ m.hands.length = hands.length := by
  unfold challengedTurn at hrun
  cases hloop : challengeLoop slapFn i hand hands pile chances challenger slapCount with
  | err e => rw [hloop] at hrun; cases hrun
  | ok m1 =>
    rw [hloop] at hrun
    dsimp only at hrun
    obtain ⟨hcons1, hlen1⟩ := chalLoop_cards slapFn i hand hands pile chances challenger
      slapCount m1 hg hi hloop
    split at hrun
    · cases hm1 : m1.challenger with
      | none => rw [hm1] at hrun; cases hrun
      | some c =>
        rw [hm1] at hrun
        dsimp only at hrun
        by_cases hc : c < m1.hands.length
        · rw [if_pos hc] at hrun
          cases hrun
          constructor
          · dsimp only
            rw [flatten_set_transfer m1.hands c m1.pile hc]
            simpa using hcons1
          · simpa [List.length_set] using hlen1
        · rw [if_neg hc] at hrun
          cases hrun
    · cases hrun
      exact ⟨hcons1, hlen1⟩

/-- Card conservation and player-count preservation through one turn of the
loop. -/
theorem turnStep_cards (f : Nat → Int) (st st' : GameState)
    (hstep : turnStep f st = .cont st') :
    stateCards st' = stateCards st ∧ st'.hands.length = st.hands.length := by
  unfold turnStep at hstep
  dsimp only at hstep
  split at hstep
  · cases hstep
  · split at hstep
    · cases hstep; exact ⟨rfl, rfl⟩
    · rename_i hemp
      split at hstep
      · split at hstep
        · cases hstep; exact ⟨rfl, rfl⟩
        · rename_i hhand
          have hi : st.handIndex < st.hands.length := by
            apply lt_length_of_getD_ne st.hands st.handIndex []
            rw [hhand]; simp
          split at hstep
          · cases hstep
            unfold stateCards
            dsimp only
            exact ⟨flatten_set_push st.hands st.handIndex _ _ st.pile hhand hi,
              by simp [List.length_set]⟩
          · cases hstep
            unfold stateCards
            dsimp only
            exact ⟨flatten_set_push st.hands st.handIndex _ _ st.pile hhand hi,
              by simp [List.length_set]⟩
      · have hnonempty : st.hands.getD st.handIndex [] ≠ [] := by
          intro hcontra
          rw [hcontra] at hemp
          exact hemp rfl
        have hi : st.handIndex < st.hands.length :=
          lt_length_of_getD_ne st.hands st.handIndex [] hnonempty
        split at hstep
        · cases hstep
        · rename_i m hct
          cases hstep
          obtain ⟨hcons, hlen⟩ := chalTurn_cards f st.handIndex
            (st.hands.getD st.handIndex []) st.hands st.pile st.chances st.challenger
            st.slapCount m rfl hi hct
          exact ⟨hcons, hlen⟩

/-- Card conservation along any number of steps. -/
theorem stepN_cards (f : Nat → Int) :
    ∀ (k : Nat) (st st' : GameState), stepN f k st = some st' →
      stateCards st' = stateCards st ∧ st'.hands.length = st.hands.length := by
  intro k
  induction k with
  | zero =>
    intro st st' h
    cases h
    exact ⟨rfl, rfl⟩
  | succ n ih =>
    intro st st' h
    unfold stepN at h
    cases hts : turnStep f st with
    | cont st2 =>
      rw [hts] at h
      obtain ⟨h1, h2⟩ := ih st2 st' h
      obtain ⟨h3, h4⟩ := turnStep_cards f st st2 hts
      exact ⟨h1.trans h3, h2.trans h4⟩
    | finished t w => rw [hts] at h; cases h
    | err e => rw [hts] at h; cases h

theorem flatten_replicate_nil (n : Nat) :
    (List.replicate n ([] : List Card)).flatten = [] := by
  induction n with
  | zero => rfl
  | succ k ih => simp [List.replicate_succ, ih]

/-- The dealing loop distributes exactly the remaining deck over the hands. -/
theorem dealLoop_cards :
    ∀ (cards : List Card) (hands : List (List Card)) (idx : Nat),
      idx < hands.length →
      (((dealLoop cards hands idx).flatten : List Card) : Multiset Card)
          = ((hands.flatten : List Card) : Multiset Card) + (cards : Multiset Card)
        ∧ (dealLoop cards hands idx).length = hands.length := by
  intro cards
  induction cards with
  | nil =>
    intro hands idx hi
    exact ⟨by simp [dealLoop], rfl⟩
  | cons c rest ih =>
    intro hands idx hi
    have hlen : (hands.set idx (c :: hands.getD idx [])).length = hands.length := by
      simp [List.length_set]
    have hi' : (idx + 1) % hands.length < (hands.set idx (c :: hands.getD idx [])).length := by
      rw [hlen]
      exact Nat.mod_lt _ (by omega)
    obtain ⟨ihc, ihl⟩ := ih (hands.set idx (c :: hands.getD idx [])) ((idx + 1) % hands.length)
      hi'
    have hset : ((hands.set idx (c :: hands.getD idx [])).flatten : Multiset Card)
        = ((hands.flatten : List Card) : Multiset Card) + {c} := by
      have h := flatten_set_cards hands idx (c :: hands.getD idx []) hi
      have h2 : ((c :: hands.getD idx [] : List Card) : Multiset Card)
          = {c} + (hands.getD idx [] : Multiset Card) := by
        rw [Multiset.singleton_add, Multiset.cons_coe]
      rw [h2] at h
      have h3 : ((hands.set idx (c :: hands.getD idx [])).flatten : Multiset Card)
            + (hands.getD idx [] : Multiset Card)
          = (((hands.flatten : List Card) : Multiset Card) + {c})
            + (hands.getD idx [] : Multiset Card) := by
        rw [h]; abel
      exact add_right_cancel h3
    constructor
    · show ((dealLoop (c :: rest) hands idx).flatten : Multiset Card)
        = ((hands.flatten : List Card) : Multiset Card) + ((c :: rest : List Card) : Multiset Card)
      have hstep : dealLoop (c :: rest) hands idx
          = dealLoop rest (hands.set idx (c :: hands.getD idx [])) ((idx + 1) % hands.length) :=
        rfl
      rw [hstep, ihc, hset]
      rw [show ((c :: rest : List Card) : Multiset Card) = {c} + (rest : Multiset Card) by
        rw [Multiset.singleton_add, Multiset.cons_coe]]
      abel
    · show (dealLoop (c :: rest) hands idx).length = hands.length
      have hstep : dealLoop (c :: rest) hands idx
          = dealLoop rest (hands.set idx (c :: hands.getD idx [])) ((idx + 1) % hands.length) :=
        rfl
      rw [hstep, ihl, hlen]

/-- `deal` distributes exactly the shuffled deck. -/
theorem deal_cards (sd : List Card) (n : Nat) (hn : 0 < n) :
    (((deal sd n).flatten : List Card) : Multiset Card) = (sd : Multiset Card)
      ∧ (deal sd n).length = n := by
  unfold deal
  obtain ⟨h1, h2⟩ := dealLoop_cards sd.reverse (List.replicate n []) 0 (by simpa using hn)
  constructor
  · rw [h1, flatten_replicate_nil]
    simp [Multiset.coe_reverse]
  · rw [h2]
    simp

/-- **C3**.  Card conservation.  First part: every state reachable from the
dealt initial state of a game on a full shuffled deck carries exactly the 52
cards of `new_deck` across its hands plus pile — the multiset equals the
deck, is duplicate-free, has 52 cards, and holds each deck card exactly
once.  Second part (per-push granularity): the challenge loop — whose
steps are the individual chance-card pushes, slap transfers and royal
breaks — preserves the hands-plus-pile multiset between any entry state
and its result. -/
theorem claim3_card_conservation :
    (∀ (sd : List Card) (n : Nat) (f : Nat → Int) (k : Nat) (st : GameState),
      (sd : Multiset Card) = (new_deck : Multiset Card) → 0 < n →
      stepN f k (initState sd n) = some st →
      stateCards st = (new_deck : Multiset Card) ∧ (stateCards st).Nodup ∧
        Multiset.card (stateCards st) = 52 ∧
        (∀ cd, cd ∈ new_deck → (stateCards st).count cd = 1)) ∧
    (∀ (slapFn : Nat → Int) (i : Nat) (hand : List Card) (hands : List (List Card))
        (pile : List Card) (chances : Nat) (challenger : Option Nat) (slapCount : Nat)
        (m : Mid),
      hands.getD i [] = hand → i < hands.length →
      challengeLoop slapFn i hand hands pile chances challenger slapCount = .ok m →
      (m.hands.flatten : Multiset Card) + (m.pile : Multiset Card)
        = ((hands.flatten : List Card) : Multiset Card) + (pile : Multiset Card)) := by
  constructor
  · intro sd n f k st hperm hn hreach
    have hsc := (stepN_cards f k (initState sd n) st hreach).1
    have hinit : stateCards (initState sd n) = (sd : Multiset Card) := by
      unfold stateCards initState
      dsimp only
      rw [(deal_cards sd n hn).1]
      simp
    have hmain : stateCards st = (new_deck : Multiset Card) := by rw [hsc, hinit, hperm]
    have hnd : (new_deck : List Card).Nodup := by decide
    refine ⟨hmain, ?_, ?_, ?_⟩
    · rw [hmain]; exact Multiset.coe_nodup.mpr hnd
    · rw [hmain, Multiset.coe_card]; rfl
    · intro cd hcd
      rw [hmain]
      exact Multiset.count_eq_one_of_mem (Multiset.coe_nodup.mpr hnd) (by simpa using hcd)
  · intro slapFn i hand hands pile chances challenger slapCount m hg hi hrun
    exact (chalLoop_cards slapFn i hand hands pile chances challenger slapCount m hg
      hi hrun).1

/-- Witness for C3: the unshuffled deck, 2 players, after 5 turns of a real
run (first part) and a concrete mid-challenge slap transfer (second part). -/
theorem claim3_witness :
    ((new_deck : Multiset Card) = (new_deck : Multiset Card) ∧ 0 < 2 ∧
      stepN (fun _ => (0 : Int)) 1 (initState new_deck 2) = some newDeckState1) ∧
    stateCards newDeckState1 = (new_deck : Multiset Card) ∧
    (([[⟨2, 0⟩], [⟨8, 2⟩, ⟨11, 1⟩, ⟨11, 0⟩]] : List (List Card)).flatten : Multiset Card)
        + (([] : List Card) : Multiset Card)
      = (([[⟨2, 0⟩], [⟨11, 1⟩, ⟨8, 2⟩]] : List (List Card)).flatten : Multiset Card)
        + (([⟨11, 0⟩] : List Card) : Multiset Card) := by
  refine ⟨⟨rfl, by decide, newdeck_stepN⟩, ?_, ?_⟩
  · exact (claim3_card_conservation.1 new_deck 2 (fun _ => (0 : Int)) 1 newDeckState1 rfl
      (by decide) newdeck_stepN).1
  · exact claim3_card_conservation.2 (fun _ => (1 : Int)) 1 [⟨11, 1⟩, ⟨8, 2⟩]
      [[⟨2, 0⟩], [⟨11, 1⟩, ⟨8, 2⟩]] [⟨11, 0⟩] 3 (some 0) 5
      ⟨[[⟨2, 0⟩], [⟨8, 2⟩, ⟨11, 1⟩, ⟨11, 0⟩]], [], 0, some 0, 6⟩
      (by decide) (by decide) (by decide)

/-! ### Termination-state machinery for C2 -/

/-- A normal `(turn, winner)` return of the fuel-bounded loop comes from a
reachable state on which the step finishes. -/
theorem simLoop_out_exists (f : Nat → Int) :
    ∀ (fuel : Nat) (st : GameState) (t w : Nat),
      simLoop f fuel st = some (.out t w) →
      ∃ k st', stepN f k st = some st' ∧ turnStep f st' = .finished t w := by
  intro fuel
  induction fuel with
  | zero => intro st t w h; cases h
  | succ n ih =>
    intro st t w h
    unfold simLoop at h
    cases hts : turnStep f st with
    | cont st2 =>
      rw [hts] at h
      obtain ⟨k, st', h1, h2⟩ := ih st2 t w h
      refine ⟨k + 1, st', ?_, h2⟩
      unfold stepN
      rw [hts]
      exact h1
    | finished t2 w2 =>
      rw [hts] at h
      have h2 : SimResult.out t2 w2 = SimResult.out t w := by
        injection h
      cases h2
      exact ⟨0, st, rfl, hts⟩
    | err e =>
      rw [hts] at h
      have h2 : SimResult.raised e = SimResult.out t w := by injection h
      cases h2

theorem getD_mem_of_lt {α : Type} :
    ∀ (l : List α) (j : Nat) (d : α), j < l.length → l.getD j d ∈ l := by
  intro l
  induction l with
  | nil => intro j d hj; simp at hj
  | cons a t ih =>
    intro j d hj
    cases j with
    | zero => exact List.mem_cons_self a t
    | succ q => exact List.mem_cons_of_mem a (ih q d (Nat.lt_of_succ_lt_succ hj))

/-- A list whose `countP` is `1` has exactly one entry satisfying the
predicate. -/
theorem countP_eq_one_unique {α : Type} (p : α → Bool) (d : α) :
    ∀ l : List α, l.countP p = 1 →
      ∃ j, j < l.length ∧ p (l.getD j d) = true ∧
        ∀ k, k < l.length → k ≠ j → p (l.getD k d) = false := by
  intro l
  induction l with
  | nil => intro h; simp at h
  | cons a t ih =>
    intro h
    rw [List.countP_cons] at h
    by_cases hpa : p a = true
    · have ht : ∀ b ∈ t, p b = false := by
        rw [hpa] at h
        simp at h
        exact h
      refine ⟨0, Nat.succ_pos _, hpa, ?_⟩
      intro k hk hkne
      cases k with
      | zero => exact absurd rfl hkne
      | succ j =>
        have hmem : t.getD j d ∈ t := getD_mem_of_lt t j d (Nat.lt_of_succ_lt_succ hk)
        exact ht _ hmem
    · have hpa2 : p a = false := by simpa using hpa
      rw [hpa2] at h
      simp at h
      obtain ⟨j, hj, hpj, hall⟩ := ih h
      refine ⟨j + 1, Nat.succ_lt_succ hj, hpj, ?_⟩
      intro k hk hkne
      cases k with
      | zero => exact hpa2
      | succ q =>
        exact hall q (Nat.lt_of_succ_lt_succ hk) (fun hq => hkne (by omega))

/-- `argmaxAux` keeps the incumbent when every remaining entry is zero and
the incumbent value is positive. -/
theorem argmaxAux_all_zero :
    ∀ (xs : List Nat) (i best bv : Nat), 0 < bv →
      (∀ k, k < xs.length → xs.getD k 0 = 0) → argmaxAux xs i best bv = best := by
  intro xs
  induction xs with
  | nil => intros; rfl
  | cons x t ih =>
    intro i best bv hbv hz
    have hx : x = 0 := hz 0 (Nat.succ_pos _)
    unfold argmaxAux
    rw [if_neg (by omega)]
    exact ih (i + 1) best bv hbv (fun k hk => hz (k + 1) (Nat.succ_lt_succ hk))

/-- `argmaxAux` with a zero incumbent finds the unique positive entry. -/
theorem argmaxAux_unique :
    ∀ (xs : List Nat) (i j best : Nat),
      j < xs.length → 0 < xs.getD j 0 →
      (∀ k, k < xs.length → k ≠ j → xs.getD k 0 = 0) →
      argmaxAux xs i best 0 = i + j := by
  intro xs
  induction xs with
  | nil => intro i j best hj; simp at hj
  | cons x t ih =>
    intro i j best hj hpos hz
    cases j with
    | zero =>
      have hx : 0 < x := hpos
      unfold argmaxAux
      rw [if_pos hx]
      rw [argmaxAux_all_zero t (i + 1) i x hx (fun k hk =>
        hz (k + 1) (Nat.succ_lt_succ hk) (by omega))]
      omega
    | succ q =>
      have hx : x = 0 := hz 0 (Nat.succ_pos _) (by omega)
      unfold argmaxAux
      rw [if_neg (by omega)]
      have := ih (i + 1) q best (Nat.lt_of_succ_lt_succ hj) hpos
        (fun k hk hkq => hz (k + 1) (Nat.succ_lt_succ hk) (by omega))
      rw [this]
      omega

/-- `np.argmax` on a list with a single positive entry (all others zero)
returns that entry's index. -/
theorem argmaxList_unique (l : List Nat) (j : Nat) (hj : j < l.length)
    (hpos : 0 < l.getD j 0)
    (hz : ∀ k, k < l.length → k ≠ j → l.getD k 0 = 0) :
    argmaxList l = j := by
  cases l with
  | nil => simp at hj
  | cons x t =>
    cases j with
    | zero =>
      have hx : 0 < x := hpos
      unfold argmaxList
      exact argmaxAux_all_zero t 1 0 x hx (fun k hk =>
        hz (k + 1) (Nat.succ_lt_succ hk) (by omega))
    | succ q =>
      have hx : x = 0 := hz 0 (Nat.succ_pos _) (by omega)
      unfold argmaxList
      subst hx
      have := argmaxAux_unique t 1 q 0 (Nat.lt_of_succ_lt_succ hj) hpos
        (fun k hk hkq => hz (k + 1) (Nat.succ_lt_succ hk) (by omega))
      show argmaxAux t 1 0 0 = q + 1
      rw [this]
      omega

theorem getD_map_length (hands : List (List Card)) :
    ∀ j, j < hands.length → (hands.map List.length).getD j 0 = (hands.getD j []).length := by
  induction hands with
  | nil => intro j hj; simp at hj
  | cons a t ih =>
    intro j hj
    cases j with
    | zero => rfl
    | succ q => exact ih q (Nat.lt_of_succ_lt_succ hj)

theorem flatten_eq_nil_of_all_nil :
    ∀ (t : List (List Card)), (∀ j, j < t.length → t.getD j [] = []) → t.flatten = [] := by
  intro t
  induction t with
  | nil => intro _; rfl
  | cons a s ih =>
    intro hz
    have ha : a = [] := hz 0 (Nat.succ_pos _)
    subst ha
    simpa using ih (fun j hj => hz (j + 1) (Nat.succ_lt_succ hj))

/-- If every hand except `w` is empty, the flattened hands are exactly hand
`w`. -/
theorem flatten_single (hands : List (List Card)) :
    ∀ (w : Nat), w < hands.length →
      (∀ j, j < hands.length → j ≠ w → hands.getD j [] = []) →
      hands.flatten = hands.getD w [] := by
  induction hands with
  | nil => intro w hw; simp at hw
  | cons a t ih =>
    intro w hw hz
    cases w with
    | zero =>
      have ht : t.flatten = [] := flatten_eq_nil_of_all_nil t (fun j hj =>
        hz (j + 1) (Nat.succ_lt_succ hj) (by omega))
      show a ++ t.flatten = a
      rw [ht, List.append_nil]
    | succ q =>
      have ha : a = [] := hz 0 (Nat.succ_pos _) (by omega)
      subst ha
      show [] ++ t.flatten = t.getD q []
      rw [List.nil_append]
      exact ih q (Nat.lt_of_succ_lt_succ hw) (fun j hj hjq =>
        hz (j + 1) (Nat.succ_lt_succ hj) (by omega))

/-- Inversion of a `finished` step: it comes from the leading termination
check, reports the current turn count and picks `np.argmax` of the hand
sizes. -/
theorem turnStep_finished_inv (f : Nat → Int) (st : GameState) (t w : Nat)
    (h : turnStep f st = .finished t w) :
    st.hands.countP (fun h => decide (0 < h.length)) = 1 ∧ t = st.turn ∧
      w = argmaxList (st.hands.map List.length) := by
  unfold turnStep at h
  dsimp only at h
  split at h
  · rename_i hcnt
    injection h with h1 h2
    exact ⟨hcnt, h1.symm, h2.symm⟩
  · split at h
    · cases h
    · split at h
      · split at h
        · cases h
        · split at h <;> cases h
      · split at h <;> cases h

/-- **C2** (amended).  Whenever `simulate_game` halts normally on a full
shuffled deck, the terminal state has exactly one player with a non-empty
hand, the returned winner index is that unique player (returned alongside
the elapsed turn count), and that player's hand TOGETHER WITH THE PILE
comprises all 52 cards.  (The winner need not hold all 52 in hand: the pile
can be non-empty at termination — see the counterexample.) -/
theorem claim2_termination (sd : List Card) (n : Nat) (f : Nat → Int) (fuel t w : Nat)
    (hperm : (sd : Multiset Card) = (new_deck : Multiset Card))
    (hsim : simulate_game sd n f fuel = some (.out t w)) :
    ∃ k st, stepN f k (initState sd n) = some st ∧ turnStep f st = .finished t w ∧
      st.hands.countP (fun h => decide (0 < h.length)) = 1 ∧
      t = st.turn ∧
      w < st.hands.length ∧
      st.hands.getD w [] ≠ [] ∧
      (∀ j, j < st.hands.length → j ≠ w → st.hands.getD j [] = []) ∧
      (st.hands.getD w []).length + st.pile.length = 52 := by
  unfold simulate_game at hsim
  by_cases hn : n = 0
  · rw [if_pos hn] at hsim
    exact absurd hsim (by simp)
  · rw [if_neg hn] at hsim
    obtain ⟨k, st, hreach, hfin⟩ := simLoop_out_exists f fuel (initState sd n) t w hsim
    obtain ⟨hcnt, ht, hw⟩ := turnStep_finished_inv f st t w hfin
    have hsc := (stepN_cards f k (initState sd n) st hreach).1
    have hinit : stateCards (initState sd n) = (sd : Multiset Card) := by
      unfold stateCards initState
      dsimp only
      rw [(deal_cards sd n (Nat.pos_of_ne_zero hn)).1]
      simp
    have hmain : stateCards st = (new_deck : Multiset Card) := by rw [hsc, hinit, hperm]
    obtain ⟨j, hj, hpj, hz⟩ := countP_eq_one_unique
      (fun (h : List Card) => decide (0 < h.length)) ([] : List Card) st.hands hcnt
    have hjpos : 0 < (st.hands.getD j []).length := of_decide_eq_true hpj
    have hzlen : ∀ q, q < st.hands.length → q ≠ j → st.hands.getD q [] = [] := by
      intro q hq hqj
      have h1 := of_decide_eq_false (hz q hq hqj)
      have hlen0 : (st.hands.getD q []).length = 0 := by omega
      exact List.length_eq_zero.mp hlen0
    have hwj : w = j := by
      rw [hw]
      refine argmaxList_unique _ j ?_ ?_ ?_
      · rw [List.length_map]; exact hj
      · rw [getD_map_length st.hands j hj]; exact hjpos
      · intro q hq hqj
        rw [List.length_map] at hq
        rw [getD_map_length st.hands q hq, hzlen q hq hqj]
        rfl
    subst hwj
    have hflat : st.hands.flatten = st.hands.getD w [] := flatten_single st.hands w hj hzlen
    have hcard : st.hands.flatten.length + st.pile.length = 52 := by
      have hcm : Multiset.card (stateCards st) = 52 := by
        rw [hmain, Multiset.coe_card]; rfl
      unfold stateCards at hcm
      rw [Multiset.card_add, Multiset.coe_card, Multiset.coe_card] at hcm
      exact hcm
    refine ⟨k, st, hreach, hfin, hcnt, ht, hj, ?_, hzlen, ?_⟩
    · intro hcon
      rw [hcon] at hjpos
      simp at hjpos
    · rw [← hflat]
      exact hcard

/-- Counterexample to C2 as stated: a legitimate 2-player game (the deck is
a permutation of `new_deck`) that halts normally at turn 17 with winner 0,
whose terminal state leaves 2 cards on the pile — the winner holds only 50
cards, not all 52. -/
theorem claim2_counterexample :
    simulate_game trickDeck 2 (fun _ => (0 : Int)) 100 = some (.out 17 0) ∧
    (trickDeck : Multiset Card) = (new_deck : Multiset Card) ∧
    (stepN (fun _ => (0 : Int)) 16 (initState trickDeck 2)).map
        (fun st => ((st.hands.getD 0 []).length, st.pile.length)) = some (50, 2) ∧
    (50 : Nat) ≠ 52 := by
  refine ⟨trick_sim, by decide, ?_, by decide⟩
  rw [trick_stepN]
  decide

/-- Witness for the amended C2, at the same concrete game. -/
theorem claim2_witness :
    (trickDeck : Multiset Card) = (new_deck : Multiset Card) ∧
    simulate_game trickDeck 2 (fun _ => (0 : Int)) 100 = some (.out 17 0) ∧
    ∃ k st, stepN (fun _ => (0 : Int)) k (initState trickDeck 2) = some st ∧
      turnStep (fun _ => (0 : Int)) st = .finished 17 0 ∧
      st.hands.countP (fun h => decide (0 < h.length)) = 1 ∧
      (17 : Nat) = st.turn ∧
      0 < st.hands.length ∧
      st.hands.getD 0 [] ≠ [] ∧
      (∀ j, j < st.hands.length → j ≠ 0 → st.hands.getD j [] = []) ∧
      (st.hands.getD 0 []).length + st.pile.length = 52 :=
  ⟨by decide, trick_sim,
   claim2_termination trickDeck 2 (fun _ => (0 : Int)) 100 17 0 (by decide) trick_sim⟩

end Ratscrew
